import Mathlib

/-!
# Verification of the linear-discord-middleware event relay

A shallow embedding, in Lean 4, of the core pipeline of the
linear-discord-middleware service: inbound webhook signature verification
(`src/index.ts`), Discord payload compaction (`src/content-optimizer.ts`),
embed construction (`src/embed-factory.ts`), and outbound delivery with
retry/backoff (`src/discord-client.ts`).

Modelling conventions:

* JavaScript strings are modelled as `JStr := List Char` (one entry per
  Unicode scalar; JS counts UTF-16 units, which coincides for all characters
  below U+10000 — the difference is immaterial to the properties proved here).
* JavaScript numbers are modelled as `ℚ` where fractional arithmetic occurs
  (backoff delays, truncation budgets) and as `Nat`/`Int` where the source
  only ever holds integers.  IEEE-754 rounding is not modelled; at every
  concrete input used below the rational and floating computations agree.
* `undefined`/`null` are modelled as `Option.none` (the source never
  distinguishes them on the paths embedded here beyond truthiness checks).
* `node:crypto`'s HMAC-SHA256 is implemented concretely (FIPS 180-4),
  so signature checks compute real digests.
-/

set_option maxRecDepth 20000

/-- A JavaScript string: a list of Unicode scalar characters. -/
abbrev JStr := List Char

/-! ## Generic JS string helpers -/

/-- JS `\s` whitespace class, restricted to its ASCII members (space, tab,
newline, carriage return, vertical tab, form feed) — the only ones the
repository's payloads can realistically contain. -/
def isWS (c : Char) : Bool :=
  c == ' ' || c == '\t' || c == '\n' || c == '\r' || c == '\x0b' || c == '\x0c'

/-- Helper for `String.prototype.replace(/\s+/g, " ")`: the flag records
whether the previous character belonged to a whitespace run (so the run is
emitted as a single space). -/
def collapseWSGo : Bool → JStr → JStr
  | _, [] => []
  | prev, c :: cs =>
    if isWS c then
      if prev then collapseWSGo true cs else ' ' :: collapseWSGo true cs
    else c :: collapseWSGo false cs

/-- JS `s.replace(/\s+/g, " ")`: every maximal whitespace run becomes one space. -/
def collapseWS (l : JStr) : JStr := collapseWSGo false l

/-- JS `String.prototype.trim()`. -/
def trimJS (l : JStr) : JStr :=
  (((l.dropWhile isWS).reverse).dropWhile isWS).reverse

/-- JS `s.lastIndexOf(c)` for a single character: last index, `-1` if absent. -/
def lastIndexOfChar (c : Char) : JStr → Int
  | [] => -1
  | x :: xs =>
    if 0 ≤ lastIndexOfChar c xs then lastIndexOfChar c xs + 1
    else if x = c then 0 else -1

/-- JS `h.startsWith(n)` on list characters. -/
def startsWithJS : JStr → JStr → Bool
  | [], _ => true
  | _ :: _, [] => false
  | n :: ns, h :: hs => n == h && startsWithJS ns hs

/-- JS `hay.includes(needle)`. -/
def containsSub (needle : JStr) : JStr → Bool
  | [] => needle.isEmpty
  | h :: hs => startsWithJS needle (h :: hs) || containsSub needle hs

/-- JS `toLowerCase`, ASCII letters only (the emoji-keyword table the source
compares against is all ASCII). -/
def lowerChar (c : Char) : Char :=
  if 'A' ≤ c ∧ c ≤ 'Z' then Char.ofNat (c.toNat + 32) else c

/-- Truthiness-aware JS `a || b` for an optional string. -/
def jsOr (a : Option JStr) (b : JStr) : JStr :=
  match a with
  | some s => if s.isEmpty then b else s
  | none => b

/-- JS `arr.join(sep)`. -/
def joinSep (sep : JStr) : List JStr → JStr
  | [] => []
  | [x] => x
  | x :: y :: rest => x ++ sep ++ joinSep sep (y :: rest)

/-- Render an integer the way a JS template literal does. -/
def intToJStr (n : Int) : JStr := (toString n).toList

/-! ## UTF-8 (Node `Buffer.from(string)`) -/

/-- UTF-8 encoding of one scalar, as byte values. -/
def utf8Char (c : Char) : List Nat :=
  let n := c.toNat
  if n < 0x80 then [n]
  else if n < 0x800 then [0xC0 + n / 64, 0x80 + n % 64]
  else if n < 0x10000 then [0xE0 + n / 4096, 0x80 + n / 64 % 64, 0x80 + n % 64]
  else [0xF0 + n / 262144, 0x80 + n / 4096 % 64, 0x80 + n / 64 % 64, 0x80 + n % 64]

/-- UTF-8 encoding of a string, as `Buffer.from(s)` produces. -/
def utf8Encode (s : JStr) : List Nat := s.flatMap utf8Char

/-! ## SHA-256 and HMAC-SHA256 (`node:crypto`), FIPS 180-4 -/

/-- `2^32`, the word modulus. -/
def M32 : Nat := 4294967296

/-- 32-bit right rotation. -/
def rotr (n x : Nat) : Nat := (x / 2 ^ n + x % 2 ^ n * 2 ^ (32 - n)) % M32

/-- 32-bit right shift. -/
def shr (n x : Nat) : Nat := x / 2 ^ n

/-- 32-bit bitwise complement. -/
def notW (x : Nat) : Nat := Nat.xor x (M32 - 1)

/-- Three-way xor. -/
def xor3 (a b c : Nat) : Nat := Nat.xor (Nat.xor a b) c

/-- FIPS 180-4 `Σ0`. -/
def bigSigma0 (x : Nat) : Nat := xor3 (rotr 2 x) (rotr 13 x) (rotr 22 x)

/-- FIPS 180-4 `Σ1`. -/
def bigSigma1 (x : Nat) : Nat := xor3 (rotr 6 x) (rotr 11 x) (rotr 25 x)

/-- FIPS 180-4 `σ0`. -/
def smallSigma0 (x : Nat) : Nat := xor3 (rotr 7 x) (rotr 18 x) (shr 3 x)

/-- FIPS 180-4 `σ1`. -/
def smallSigma1 (x : Nat) : Nat := xor3 (rotr 17 x) (rotr 19 x) (shr 10 x)

/-- FIPS 180-4 `Ch`. -/
def chW (x y z : Nat) : Nat := Nat.xor (Nat.land x y) (Nat.land (notW x) z)

/-- FIPS 180-4 `Maj`. -/
def majW (x y z : Nat) : Nat := xor3 (Nat.land x y) (Nat.land x z) (Nat.land y z)

/-- The 64 SHA-256 round constants. -/
def sha256K : List Nat :=
  [1116352408, 1899447441, 3049323471, 3921009573, 961987163, 1508970993,
   2453635748, 2870763221, 3624381080, 310598401, 607225278, 1426881987,
   1925078388, 2162078206, 2614888103, 3248222580, 3835390401, 4022224774,
   264347078, 604807628, 770255983, 1249150122, 1555081692, 1996064986,
   2554220882, 2821834349, 2952996808, 3210313671, 3336571891, 3584528711,
   113926993, 338241895, 666307205, 773529912, 1294757372, 1396182291,
   1695183700, 1986661051, 2177026350, 2456956037, 2730485921, 2820302411,
   3259730800, 3345764771, 3516065817, 3600352804, 4094571909, 275423344,
   430227734, 506948616, 659060556, 883997877, 958139571, 1322822218,
   1537002063, 1747873779, 1955562222, 2024104815, 2227730452, 2361852424,
   2428436474, 2756734187, 3204031479, 3329325298]

/-- Working state: eight 32-bit words. -/
structure H8 where
  a : Nat
  b : Nat
  c : Nat
  d : Nat
  e : Nat
  f : Nat
  g : Nat
  h : Nat

/-- The SHA-256 initial hash value. -/
def sha256H0 : H8 :=
  ⟨1779033703, 3144134277, 1013904242, 2773480762,
   1359893119, 2600822924, 528734635, 1541459225⟩

/-- Parse a 64-byte block into 16 big-endian words. -/
def words16 : List Nat → List Nat
  | b0 :: b1 :: b2 :: b3 :: rest => (((b0 * 256 + b1) * 256 + b2) * 256 + b3) :: words16 rest
  | _ => []

/-- One message-schedule extension step. -/
def extendStep (w : List Nat) : List Nat :=
  let n := w.length
  w ++ [(smallSigma1 (w.getD (n - 2) 0) + w.getD (n - 7) 0 +
         smallSigma0 (w.getD (n - 15) 0) + w.getD (n - 16) 0) % M32]

/-- Iterate the schedule extension. -/
def extendN : Nat → List Nat → List Nat
  | 0, w => w
  | n + 1, w => extendN n (extendStep w)

/-- The 64-word message schedule of one block. -/
def schedule (block : List Nat) : List Nat := extendN 48 (words16 block)

/-- One SHA-256 round. -/
def compressStep (s : H8) (kw : Nat × Nat) : H8 :=
  let t1 := (s.h + bigSigma1 s.e + chW s.e s.f s.g + kw.1 + kw.2) % M32
  let t2 := (bigSigma0 s.a + majW s.a s.b s.c) % M32
  ⟨(t1 + t2) % M32, s.a, s.b, s.c, (s.d + t1) % M32, s.e, s.f, s.g⟩

/-- Compress one 64-byte block into the running state. -/
def compress (h : H8) (block : List Nat) : H8 :=
  let s := (sha256K.zip (schedule block)).foldl compressStep h
  ⟨(h.a + s.a) % M32, (h.b + s.b) % M32, (h.c + s.c) % M32, (h.d + s.d) % M32,
   (h.e + s.e) % M32, (h.f + s.f) % M32, (h.g + s.g) % M32, (h.h + s.h) % M32⟩

/-- The 8-byte big-endian message length field. -/
def lenBytes8 (n : Nat) : List Nat :=
  [n / 2 ^ 56 % 256, n / 2 ^ 48 % 256, n / 2 ^ 40 % 256, n / 2 ^ 32 % 256,
   n / 2 ^ 24 % 256, n / 2 ^ 16 % 256, n / 2 ^ 8 % 256, n % 256]

/-- SHA-256 padding: `0x80`, zeros to 56 mod 64, then the bit length. -/
def sha256Pad (msg : List Nat) : List Nat :=
  msg ++ 0x80 :: List.replicate ((119 - msg.length % 64) % 64) 0 ++ lenBytes8 (8 * msg.length)

/-- Split a padded message into its 64-byte blocks (`n` = block count). -/
def blocksGo : Nat → List Nat → List (List Nat)
  | 0, _ => []
  | n + 1, l => l.take 64 :: blocksGo n (l.drop 64)

/-- The eight 32-bit words of the SHA-256 digest of a byte string. -/
def sha256Words (msg : List Nat) : List Nat :=
  let p := sha256Pad msg
  let f := (blocksGo (p.length / 64) p).foldl compress sha256H0
  [f.a, f.b, f.c, f.d, f.e, f.f, f.g, f.h]

/-- A 32-bit word as four big-endian bytes. -/
def wordBytes (w : Nat) : List Nat :=
  [w / 2 ^ 24 % 256, w / 2 ^ 16 % 256, w / 2 ^ 8 % 256, w % 256]

/-- SHA-256 digest, as 32 bytes. -/
def sha256 (msg : List Nat) : List Nat := (sha256Words msg).flatMap wordBytes

/-- HMAC-SHA256 over byte strings (RFC 2104 with a 64-byte block). -/
def hmacSha256 (key msg : List Nat) : List Nat :=
  let k0 := if 64 < key.length then sha256 key else key
  let k := k0 ++ List.replicate (64 - k0.length) 0
  sha256 (k.map (Nat.xor 0x5c) ++ sha256 (k.map (Nat.xor 0x36) ++ msg))

/-- One lowercase hex digit. -/
def hexChar (n : Nat) : Char :=
  if n < 10 then Char.ofNat (48 + n) else Char.ofNat (87 + n)

/-- One byte as two lowercase hex digits. -/
def byteHex (b : Nat) : List Char := [hexChar (b / 16), hexChar (b % 16)]

/-- A byte string as lowercase hex, as `hmac.digest("hex")` renders it. -/
def hexDigest (bs : List Nat) : JStr := bs.flatMap byteHex

/-- `crypto.createHmac("sha256", secret).update(payload).digest("hex")`. -/
def hmacSha256Hex (secret payload : JStr) : JStr :=
  hexDigest (hmacSha256 (utf8Encode secret) (utf8Encode payload))

/-! ## `verifySignature` (src/index.ts)

The handler reads the `linear-signature` header and the body's
`webhookTimestamp` field and calls
`verifySignature(signature, rawBody, secret, webhookTimestamp)`.
A missing or non-numeric `webhookTimestamp` is modelled as `none`: in the
source `Math.abs(now - undefined)` is `NaN` and `NaN > timeWindow` is
`false`, so the replay check does not reject in that case. -/

/-- The fields of `config` that `verifySignature` consults. -/
structure SignatureConfig where
  enableSignatureVerification : Bool
  /-- `config.linear.signatureTimeWindow`, in seconds (default 60). -/
  signatureTimeWindow : Int

/-- The digest comparison at the end of `verifySignature`:
`Buffer.from` both strings, reject on byte-length mismatch, then
`crypto.timingSafeEqual` (equality of the byte strings). -/
def compareSignatures (signature digest : JStr) : Bool :=
  let sb := utf8Encode signature
  let db := utf8Encode digest
  if sb.length ≠ db.length then false else sb == db

/-- `verifySignature` from src/index.ts.  `now` is `Date.now()` in
milliseconds; `webhookTimestamp` is the body's claimed timestamp. -/
def verifySignature (cfg : SignatureConfig) (signature payload secret : JStr)
    (webhookTimestamp : Option Int) (now : Int) : Bool :=
  if secret.isEmpty || !cfg.enableSignatureVerification then true
  else
    let timeWindow := cfg.signatureTimeWindow * 1000
    let stale : Bool := match webhookTimestamp with
      | some t => decide (timeWindow < |now - t|)
      | none => false
    if stale then false
    else compareSignatures signature (hmacSha256Hex secret payload)

/-! ## Discord message shapes (src/discord-client.ts interfaces)

`fields` is modelled as a plain list with `[]` for an absent array, and
optional sub-objects as `Option`: Discord treats a missing `fields` key and
an empty array identically, and nothing in the repository distinguishes
them. -/

/-- One name/value field of an embed. -/
structure EmbedField where
  name : JStr
  value : JStr
  inline : Option Bool
deriving DecidableEq

/-- An embed footer. -/
structure EmbedFooter where
  text : JStr
  icon_url : Option JStr
deriving DecidableEq

/-- An embed author. -/
structure EmbedAuthor where
  name : JStr
  icon_url : Option JStr
  url : Option JStr
deriving DecidableEq

/-- A Discord embed (`DiscordEmbed` interface). -/
structure DiscordEmbed where
  title : JStr
  url : Option JStr
  description : JStr
  color : Int
  fields : List EmbedField
  author : Option EmbedAuthor
  footer : Option EmbedFooter
  timestamp : Option JStr
deriving DecidableEq

/-- A Discord webhook payload (`DiscordWebhookPayload` interface). -/
structure DiscordWebhookPayload where
  username : Option JStr
  avatar_url : Option JStr
  content : JStr
  embeds : List DiscordEmbed
deriving DecidableEq

/-! ## ContentOptimizer (src/content-optimizer.ts)

All functions take `prodEnv : Bool` where the source consults
`config.nodeEnv === "production"` (the config default is `development`,
i.e. `prodEnv = false`).

`enhanceMarkdown`'s four regex substitutions after the whitespace collapse
replace every match with the identical text (`` `$1` `` for `` `...` ``,
`**$1**` for `**...**`, `*$1*` for `*...*`, `[$1]($2)` for links), so they
are the identity and the collapse-plus-trim is the whole function. -/

/-- `s.substring(0, q)`'s end index: JS ToInteger (truncation), clamped at 0. -/
def jsSubstrEnd (q : ℚ) : Nat := if q ≤ 0 then 0 else q.floor.toNat

/-- `ContentOptimizer.truncateText`: cut at `maxLength`, preferring the last
space/newline boundary when it lies within the final 20% of the budget. -/
def truncateText (text : JStr) (maxLength : ℚ) : JStr :=
  if (text.length : ℚ) ≤ maxLength then text
  else
    let truncated := text.take (jsSubstrEnd maxLength)
    let lastSpace := lastIndexOfChar ' ' truncated
    let lastNewline := lastIndexOfChar '\n' truncated
    let boundary := max lastSpace lastNewline
    if maxLength * (4 / 5) < (boundary : ℚ) then text.take boundary.toNat
    else truncated

/-- `ContentOptimizer.enhanceMarkdown`: collapse whitespace runs and trim
(the markdown regexes are identity substitutions, see section comment). -/
def enhanceMarkdown (text : JStr) : JStr := trimJS (collapseWS text)

/-- `text.replace(/\n{3,}/g, "\n\n")`: `run` counts the newlines already
emitted in the current run; further newlines of the run are dropped. -/
def fixNL3 : Nat → JStr → JStr
  | _, [] => []
  | run, c :: cs =>
    if c = '\n' then
      if 2 ≤ run then fixNL3 run cs else '\n' :: fixNL3 (run + 1) cs
    else c :: fixNL3 0 cs

/-- Is this one of `.` `!` `?` (the regex class `[.!?]`)? -/
def isSentenceEnd (c : Char) : Bool := c == '.' || c == '!' || c == '?'

/-- The regex class `[A-Z]`. -/
def isUpperAscii (c : Char) : Bool := 'A' ≤ c && c ≤ 'Z'

/-- `text.replace(/([.!?])\n([A-Z])/g, "$1\n\n$2")`, left to right and
non-overlapping (the matched capital is consumed). -/
def sentenceBreaks : JStr → JStr
  | [] => []
  | [a] => [a]
  | [a, b] => [a, b]
  | a :: b :: c :: rest =>
    if isSentenceEnd a && b == '\n' && isUpperAscii c then
      a :: '\n' :: '\n' :: c :: sentenceBreaks rest
    else a :: sentenceBreaks (b :: c :: rest)

/-- `ContentOptimizer.optimizeLineBreaks`. -/
def optimizeLineBreaks (text : JStr) : JStr :=
  trimJS (sentenceBreaks (fixNL3 0 text))

/-- `ContentOptimizer.optimizeContent`. -/
def optimizeContent (content : JStr) : JStr :=
  if content.isEmpty then []
  else
    let optimized := enhanceMarkdown content
    if 2000 < optimized.length then truncateText optimized (2000 - 3) ++ "...".toList
    else optimized

/-- The source's keyword → emoji table, in insertion order. -/
def emojiMap : List (JStr × JStr) :=
  [("created".toList, "🆕".toList), ("updated".toList, "📝".toList),
   ("deleted".toList, "🗑️".toList), ("removed".toList, "🗑️".toList),
   ("comment".toList, "💬".toList), ("issue".toList, "🎫".toList),
   ("project".toList, "📂".toList), ("team".toList, "👥".toList),
   ("user".toList, "👤".toList), ("cycle".toList, "🔄".toList),
   ("label".toList, "🏷️".toList)]

/-- The `for … of Object.entries(emojiMap)` loop with its early return. -/
def addEmojiLoop : List (JStr × JStr) → JStr → JStr
  | [], title => title
  | (kw, em) :: rest, title =>
    if containsSub kw (title.map lowerChar) && !containsSub em title then
      em ++ ' ' :: title
    else addEmojiLoop rest title

/-- `ContentOptimizer.addTitleEmojis` (identity in production). -/
def addTitleEmojis (prodEnv : Bool) (title : JStr) : JStr :=
  if prodEnv then title else addEmojiLoop emojiMap title

/-- `ContentOptimizer.optimizeTitle`. -/
def optimizeTitle (prodEnv : Bool) (title : JStr) : JStr :=
  if title.isEmpty then []
  else
    let optimized := addTitleEmojis prodEnv title
    if 256 < optimized.length then truncateText optimized (256 - 3) ++ "...".toList
    else optimized

/-- `ContentOptimizer.optimizeDescription`. -/
def optimizeDescription (description : JStr) : JStr :=
  if description.isEmpty then []
  else
    let optimized := optimizeLineBreaks (enhanceMarkdown description)
    if 4096 < optimized.length then truncateText optimized (4096 - 3) ++ "...".toList
    else optimized

/-- `ContentOptimizer.optimizeFieldValue`. -/
def optimizeFieldValue (value : JStr) : JStr :=
  if value.isEmpty then "N/A".toList
  else
    let optimized := enhanceMarkdown value
    if 1024 < optimized.length then truncateText optimized (1024 - 3) ++ "...".toList
    else optimized

/-- The per-field map inside `optimizeEmbed`: truncate the name (with the
`"Field"` fallback for an empty one) and optimize the value (with the
`"Empty"` fallback). -/
def optimizeField (f : EmbedField) : EmbedField :=
  { name := truncateText (if f.name.isEmpty then "Field".toList else f.name) 256,
    value := optimizeFieldValue (if f.value.isEmpty then "Empty".toList else f.value),
    inline := f.inline }

/-- `ContentOptimizer.optimizeEmbed`. -/
def optimizeEmbed (prodEnv : Bool) (e : DiscordEmbed) : DiscordEmbed :=
  { title := optimizeTitle prodEnv e.title,
    url := e.url,
    description := optimizeDescription e.description,
    color := e.color,
    timestamp := e.timestamp,
    fields :=
      if e.fields.isEmpty then []
      else ((e.fields.take 25).map optimizeField).filter
        (fun f => !f.name.isEmpty && !f.value.isEmpty),
    author := none,
    footer := e.footer.map fun ft =>
      { text := truncateText ft.text 2048, icon_url := ft.icon_url } }

/-- `ContentOptimizer.calculateEmbedSize`. -/
def calculateEmbedSize (e : DiscordEmbed) : Nat :=
  e.title.length + e.description.length +
  (match e.footer with | some ft => ft.text.length | none => 0) +
  (e.fields.map fun f => f.name.length + f.value.length).sum

/-- The `fieldLimit` of `ContentOptimizer.reduceEmbedSize`:
`Math.floor(Math.floor(maxSize * 0.3) / Math.max(embed.fields.length, 1))`. -/
def reduceFieldLimit (e : DiscordEmbed) (maxSize : Nat) : Int :=
  (((((maxSize : ℚ) * (3 / 10)).floor : Int) : ℚ) / ((max e.fields.length 1 : Nat) : ℚ)).floor

/-- The shrunk embed `ContentOptimizer.reduceEmbedSize` builds: description
cut to 60% of the budget when it exceeds that, the first five fields with
name/value cut to small fixed sizes. -/
def reducedEmbed (e : DiscordEmbed) (maxSize : Nat) : DiscordEmbed :=
  { title := e.title,
    url := e.url,
    description :=
      if !e.description.isEmpty ∧ (maxSize : ℚ) * (3 / 5) < (e.description.length : ℚ) then
        truncateText e.description ((((maxSize : ℚ) * (3 / 5)).floor : Int) : ℚ)
      else e.description,
    color := e.color,
    timestamp := e.timestamp,
    footer := e.footer,
    author := none,
    fields := (e.fields.take 5).map fun f =>
      { name := truncateText f.name (min ((reduceFieldLimit e maxSize : ℚ) / 2) 50),
        value := truncateText f.value (min ((reduceFieldLimit e maxSize : ℚ)) 100),
        inline := f.inline } }

/-- `ContentOptimizer.reduceEmbedSize`.  `maxSize` is the remaining budget
(`EMBED_TOTAL_MAX - totalSize`, always ≥ 0 at the call site); the shrunk
embed is kept only when its final size fits the budget. -/
def reduceEmbedSize (e : DiscordEmbed) (maxSize : Nat) : Option DiscordEmbed :=
  if maxSize < 100 then none
  else if calculateEmbedSize (reducedEmbed e maxSize) ≤ maxSize then some (reducedEmbed e maxSize)
  else none

/-- The loop of `ContentOptimizer.ensureTotalEmbedSize`: `total` is the
running size; an oversized block is shrunk into the remaining budget and
kept only if it then fits, and the loop stops either way. -/
def ensureGo (total : Nat) : List DiscordEmbed → List DiscordEmbed
  | [] => []
  | e :: rest =>
    let s := calculateEmbedSize e
    if total + s ≤ 6000 then e :: ensureGo (total + s) rest
    else
      match reduceEmbedSize e (6000 - total) with
      | some r => [r]
      | none => []

/-- `ContentOptimizer.ensureTotalEmbedSize`. -/
def ensureTotalEmbedSize (embeds : List DiscordEmbed) : List DiscordEmbed :=
  ensureGo 0 embeds

/-- `ContentOptimizer.optimizePayload`. -/
def optimizePayload (prodEnv : Bool) (p : DiscordWebhookPayload) : DiscordWebhookPayload :=
  { username := p.username,
    avatar_url := p.avatar_url,
    content := optimizeContent p.content,
    embeds := ensureTotalEmbedSize ((p.embeds.map (optimizeEmbed prodEnv)).take 10) }

/-! ## DiscordClient (src/discord-client.ts)

`makeRequest` posts with `validateStatus: () => true`, so axios resolves for
*every* received HTTP response, whatever its status; it rejects only when no
response arrives (network error / timeout).  `sendWebhook`'s loop is driven
here by an `oracle : Nat → AttemptOutcome` giving the transport outcome of
each attempt (indexed by the `attempt` counter at request time). -/

/-- JS `parseInt`, `none` for `NaN`. -/
def jsParseInt (s : JStr) : Option Int :=
  let t := s.dropWhile isWS
  let core := fun (l : JStr) =>
    let ds := l.takeWhile (·.isDigit)
    if ds.isEmpty then none
    else some (ds.foldl (fun (a : Nat) c => a * 10 + (c.toNat - 48)) 0)
  match t with
  | '-' :: rest => (core rest).map fun n => -(n : Int)
  | '+' :: rest => (core rest).map fun n => (n : Int)
  | _ => (core t).map fun n => (n : Int)

/-- JS `parseFloat`, `none` for `NaN` (decimal forms only). -/
def jsParseFloat (s : JStr) : Option ℚ :=
  let t := s.dropWhile isWS
  let core := fun (l : JStr) =>
    let ds := l.takeWhile (·.isDigit)
    let rest := l.drop ds.length
    let frac : JStr := match rest with
      | '.' :: r => r.takeWhile (·.isDigit)
      | _ => []
    if ds.isEmpty ∧ frac.isEmpty then none
    else
      let ip : ℚ := ds.foldl (fun a c => a * 10 + ((c.toNat : ℚ) - 48)) 0
      some (ip + (frac.foldl (fun a c => a * 10 + ((c.toNat : ℚ) - 48)) 0) / 10 ^ frac.length)
  match t with
  | '-' :: rest => (core rest).map fun q => -q
  | '+' :: rest => (core rest).map fun q => q
  | _ => core t

/-- The response headers `DiscordClient` reads, as raw strings
(`none` = header absent). -/
structure ResponseHeaders where
  xRateLimitLimit : Option JStr
  xRateLimitRemaining : Option JStr
  xRateLimitReset : Option JStr
  xRateLimitResetAfter : Option JStr
  xRateLimitBucket : Option JStr
  xRateLimitScope : Option JStr
  retryAfter : Option JStr
deriving DecidableEq

/-- `DiscordRateLimitInfo`. -/
structure DiscordRateLimitInfo where
  limit : Option Int
  remaining : Option Int
  reset : Option Int
  resetAfter : Option ℚ
  bucket : Option JStr
  scope : Option JStr
deriving DecidableEq

/-- Truthiness of an optional header string. -/
def truthyHdr : Option JStr → Bool
  | some s => !s.isEmpty
  | none => false

/-- `DiscordClient.updateRateLimitInfo`: parse the rate-limit headers of a
response (any response, whatever its status). -/
def updateRateLimitInfo (h : ResponseHeaders) : DiscordRateLimitInfo :=
  { limit := if truthyHdr h.xRateLimitLimit then jsParseInt (h.xRateLimitLimit.getD []) else none,
    remaining := if truthyHdr h.xRateLimitRemaining then jsParseInt (h.xRateLimitRemaining.getD []) else none,
    reset := if truthyHdr h.xRateLimitReset then jsParseInt (h.xRateLimitReset.getD []) else none,
    resetAfter := if truthyHdr h.xRateLimitResetAfter then jsParseFloat (h.xRateLimitResetAfter.getD []) else none,
    bucket := if truthyHdr h.xRateLimitBucket then h.xRateLimitBucket else none,
    scope := if truthyHdr h.xRateLimitScope then h.xRateLimitScope else none }

/-- The `RetryableError` shape `parseError` produces. -/
structure RetryableError where
  message : JStr
  status : Option Nat
  retryAfter : Option Int
deriving DecidableEq

/-- An axios error as `parseError` inspects it. -/
structure AxiosErrorModel where
  /-- `error.response`: the status, status text and headers, when the server
  responded at all. -/
  response : Option (Nat × JStr × ResponseHeaders)
  /-- `error.code`, for network errors. -/
  code : Option JStr
  message : JStr

/-- `DiscordClient.parseError`. -/
def parseError (err : AxiosErrorModel) : RetryableError :=
  match err.response with
  | some (status, statusText, headers) =>
    if status = 429 then
      { message := "Discord rate limited. Retry after: ".toList ++
          jsOr headers.retryAfter "unknown".toList ++ "s".toList,
        status := some status,
        retryAfter := if truthyHdr headers.retryAfter
          then jsParseInt (headers.retryAfter.getD []) else none }
    else
      { message := "Discord API error ".toList ++ intToJStr status ++ ": ".toList ++ statusText,
        status := some status, retryAfter := none }
  | none =>
    match err.code with
    | some code =>
      if code.isEmpty then
        { message := "Unknown error: ".toList ++ err.message, status := none, retryAfter := none }
      else
        { message := "Network error: ".toList ++ code, status := none, retryAfter := none }
    | none =>
      { message := "Unknown error: ".toList ++ err.message, status := none, retryAfter := none }

/-- Truthiness of the optional `status` field (`error.status &&`). -/
def truthyStatus : Option Nat → Bool
  | some s => s ≠ 0
  | none => false

/-- `DiscordClient.isRetryableError`. -/
def isRetryableError (e : RetryableError) : Bool :=
  if e.status == some 429 then true
  else if truthyStatus e.status && decide (500 ≤ e.status.getD 0) && decide (e.status.getD 0 < 600) then true
  else if !truthyStatus e.status then true
  else if truthyStatus e.status && decide (400 ≤ e.status.getD 0) && decide (e.status.getD 0 < 500) then false
  else true

/-- `DiscordClient.calculateDelay`.  `rand` stands for the `Math.random()`
draw; the exponent is over `ℤ` as `Math.pow` computes it. -/
def calculateDelay (retryDelay rateLimitBuffer : ℚ) (attempt : Nat)
    (retryAfter : Option Int) (rand : ℚ) : ℚ :=
  let truthyRA : Bool := match retryAfter with
    | some ra => ra ≠ 0
    | none => false
  if truthyRA then (retryAfter.getD 0 : ℚ) * 1000 + rateLimitBuffer
  else
    let baseDelay := retryDelay
    let exponentialDelay := baseDelay * (2 : ℚ) ^ ((attempt : ℤ) - 1)
    let jitter := exponentialDelay * (1 / 4) * (rand * 2 - 1)
    min (max baseDelay (exponentialDelay + jitter)) 30000

/-- The transport outcome of one attempt: either an HTTP response was
received (any status — axios never rejects on status here), or the
transport itself failed with an error code. -/
inductive AttemptOutcome
  | response (status : Nat) (statusText : JStr) (headers : ResponseHeaders)
  | netError (code : JStr)

/-- What one `sendWebhook` call does. -/
inductive SendResult
  /-- Returned normally after `attemptNo` attempts; the rate-limit info
  recorded from the last response's headers. -/
  | success (attemptNo : Nat) (info : DiscordRateLimitInfo)
  /-- Threw a non-retryable error immediately. -/
  | thrownFatal (e : RetryableError)
  /-- Threw the aggregated `Discord webhook failed after N attempts` error. -/
  | exhausted (attempts : Nat) (lastMessage : Option JStr)
deriving DecidableEq

/-- The `while (attempt <= maxRetries)` loop of `DiscordClient.sendWebhook`.
`fuel` is the number of loop iterations still permitted,
`maxRetries + 1 - attempt`; the aggregated error is thrown when the loop
exits. -/
def sendWebhookGo (maxRetries : Nat) (oracle : Nat → AttemptOutcome) :
    Nat → Nat → Option JStr → SendResult
  | _, 0, lastMsg => .exhausted (maxRetries + 1) lastMsg
  | attempt, fuel + 1, _ =>
    match oracle attempt with
    | .response _ _ headers => .success (attempt + 1) (updateRateLimitInfo headers)
    | .netError code =>
      let lastError := parseError { response := none, code := some code, message := [] }
      if !isRetryableError lastError then .thrownFatal lastError
      else if maxRetries < attempt + 1 then .exhausted (maxRetries + 1) (some lastError.message)
      else sendWebhookGo maxRetries oracle (attempt + 1) fuel (some lastError.message)

/-- `DiscordClient.sendWebhook`, as a function of the per-attempt transport
outcomes. -/
def sendWebhook (maxRetries : Nat) (oracle : Nat → AttemptOutcome) : SendResult :=
  sendWebhookGo maxRetries oracle 0 (maxRetries + 1) none

/-! ## Linear entity data (src/schemas.ts, the fields the factory reads)

`null` and `undefined` are both `none`; a JS `x?.y || fallback` chain is
`jsOr`.  The `LinearIssue` model carries the lifecycle timestamps the schema
declares (`startedAt`, `completedAt`, `dueDate`) even though this factory
never reads them — claims about diff tracking quantify over them. -/

/-- A Linear user (the fields the factory renders). -/
structure LinearUser where
  name : JStr
  displayName : Option JStr := none
  email : Option JStr := none
deriving DecidableEq

/-- A name-carrying nested reference (state, priority). -/
structure NamedRef where
  name : JStr
deriving DecidableEq

/-- A Linear team reference. -/
structure LinearTeam where
  name : JStr
  key : Option JStr := none
deriving DecidableEq

/-- A Linear project reference. -/
structure LinearProject where
  name : JStr
deriving DecidableEq

/-- A Linear cycle reference. -/
structure LinearCycle where
  name : JStr
  startsAt : Option JStr := none
  endsAt : Option JStr := none
deriving DecidableEq

/-- A Linear label reference. -/
structure LinearLabel where
  name : JStr
deriving DecidableEq

/-- A Linear issue (the fields the factory reads). -/
structure LinearIssue where
  id : JStr
  title : JStr
  description : Option JStr := none
  state : Option NamedRef := none
  assignee : Option LinearUser := none
  creator : Option LinearUser := none
  updater : Option LinearUser := none
  team : Option LinearTeam := none
  priority : Option NamedRef := none
  project : Option LinearProject := none
  cycle : Option LinearCycle := none
  labels : Option (List (Option LinearLabel)) := none
  estimate : Option Int := none
  identifier : Option JStr := none
  number : Option Int := none
  customerTicketCount : Option Int := none
  createdAt : Option JStr := none
  updatedAt : Option JStr := none
  startedAt : Option JStr := none
  completedAt : Option JStr := none
  dueDate : Option JStr := none
deriving DecidableEq

/-- `Partial<LinearIssue>`, as `updatedFrom` arrives for update events. -/
structure IssueUpdatedFrom where
  title : Option JStr := none
  description : Option JStr := none
  state : Option NamedRef := none
  assignee : Option LinearUser := none
  priority : Option NamedRef := none
  project : Option LinearProject := none
  cycle : Option LinearCycle := none
  labels : Option (List (Option LinearLabel)) := none
  estimate : Option Int := none
  startedAt : Option JStr := none
  completedAt : Option JStr := none
  dueDate : Option JStr := none
deriving DecidableEq

/-- The issue sub-object of a comment (`Partial<LinearIssue>`). -/
structure CommentIssue where
  title : Option JStr := none
  identifier : Option JStr := none
  description : Option JStr := none
  number : Option Int := none
  team : Option LinearTeam := none
  state : Option NamedRef := none
  assignee : Option LinearUser := none
  priority : Option NamedRef := none
  project : Option LinearProject := none
deriving DecidableEq

/-- A Linear comment (the fields the factory reads). -/
structure LinearComment where
  id : JStr
  body : JStr
  user : Option LinearUser := none
  issue : Option CommentIssue := none
  issueId : Option JStr := none
  createdAt : Option JStr := none
  updatedAt : Option JStr := none
  edited : Option Bool := none
deriving DecidableEq

/-- The open string-keyed entity data of non-Issue, non-Comment events
(the keys the entity-specific creators read). -/
structure GenericData where
  id : Option JStr := none
  name : Option JStr := none
  title : Option JStr := none
  description : Option JStr := none
  state : Option JStr := none
  key : Option JStr := none
  color : Option JStr := none
  number : Option Int := none
  startsAt : Option JStr := none
  endsAt : Option JStr := none
  displayName : Option JStr := none
  email : Option JStr := none
deriving DecidableEq

/-- A webhook action (the schema's closed enum). -/
inductive LinearAction
  | create
  | update
  | remove
deriving DecidableEq

/-- The ambient date/clock functions (`new Date(...)` rendering) the factory
calls; passed as an environment so embeds stay pure. -/
structure JsDateEnv where
  toLocaleDateString : JStr → JStr
  toLocaleString : JStr → JStr
  nowIso : JStr

/-! ## EmbedFactory (src/embed-factory.ts) -/

/-- Truthiness of an optional string (`x?.s` used as a condition). -/
def truthyStr : Option JStr → Bool
  | some s => !s.isEmpty
  | none => false

/-- Truthiness of an optional number (`x?.n` used as a condition; `0` falsy). -/
def truthyNum : Option Int → Bool
  | some n => n ≠ 0
  | none => false

/-- `u?.displayName || u?.name || fallback`. -/
def userNameOr (u : Option LinearUser) (fallback : JStr) : JStr :=
  jsOr (u.bind (·.displayName)) (jsOr (u.map (·.name)) fallback)

/-- `` `#${number}` ``: the template renders a missing number as
`#undefined`, so the result is always truthy. -/
def hashNumber (n : Option Int) : JStr :=
  "#".toList ++ (match n with | some v => intToJStr v | none => "undefined".toList)

/-- `${identifier || `#${number}` || id}` — the `#…` alternative is a
nonempty string, so the trailing `|| id` can never be reached. -/
def issueIdText (identifier : Option JStr) (number : Option Int) : JStr :=
  jsOr identifier (hashNumber number)

/-- `labels.map(l => l?.name).filter(Boolean)`. -/
def labelNames (ls : List (Option LinearLabel)) : List JStr :=
  ((ls.map fun l => l.map (·.name)).filterMap id).filter fun s => !s.isEmpty

/-- Code-unit lexicographic `<` on strings, as the default `Array.sort`
comparator orders them (labels are plain-text names; the surrogate-order
corner of UTF-16 does not arise for them). -/
def jstrLtCU : JStr → JStr → Bool
  | [], [] => false
  | [], _ :: _ => true
  | _ :: _, [] => false
  | a :: as, b :: bs =>
    if a.toNat < b.toNat then true
    else if b.toNat < a.toNat then false
    else jstrLtCU as bs

/-- JS `array.sort()` on an array of strings. -/
def sortJStrs (l : List JStr) : List JStr :=
  l.mergeSort fun a b => !jstrLtCU b a

/-- The fixed per-action embed colors (`EmbedFactory.getActionColor`).
The `default` arm of the source's switch is unreachable for the schema's
closed action enum. -/
def getActionColor : LinearAction → Int
  | .create => 3066993
  | .update => 16776960
  | .remove => 15158332

/-- `${action.charAt(0).toUpperCase() + action.slice(1)}d`. -/
def actionTitleWord : LinearAction → JStr
  | .create => "Created".toList
  | .update => "Updated".toList
  | .remove => "Removed".toList

/-- The Linear logo icon URL used in every footer. -/
def linearLogo : JStr := "https://linear.app/static/linear-logo.png".toList

/-! ### Issue create -/

/-- The description block of `createIssueCreateEmbed` before the 4096 cut:
the issue's own description (truncated at 300 with an ellipsis) or the
placeholder, followed by the context lines. -/
def issueCreateDescription (i : LinearIssue) : JStr :=
  let base :=
    match i.description with
    | some d =>
      if d.isEmpty then "*No description provided*".toList
      else if 300 < d.length then d.take 300 ++ "...".toList
      else d
    | none => "*No description provided*".toList
  let contextInfo : List JStr :=
    (if truthyStr (i.project.map (·.name)) then
      ["📋 **Project:** ".toList ++ (i.project.map (·.name)).getD []] else []) ++
    (if truthyStr (i.cycle.map (·.name)) then
      ["🔄 **Cycle:** ".toList ++ (i.cycle.map (·.name)).getD []] else []) ++
    (match i.labels with
     | some ls =>
       if ls.length > 0 ∧ !(joinSep ", ".toList (labelNames ls)).isEmpty then
         ["🏷️ **Labels:** ".toList ++ joinSep ", ".toList (labelNames ls)]
       else []
     | none => []) ++
    (if truthyNum i.estimate then
      ["⏱️ **Estimate:** ".toList ++ intToJStr (i.estimate.getD 0) ++ " pts".toList] else []) ++
    (if truthyNum i.customerTicketCount ∧ 0 < i.customerTicketCount.getD 0 then
      ["👥 **Customer Requests:** ".toList ++ intToJStr (i.customerTicketCount.getD 0)] else [])
  if contextInfo.length > 0 then base ++ "\n\n".toList ++ joinSep "\n".toList contextInfo
  else base

/-- The `📅 Cycle Timeline` field, when the cycle carries dates. -/
def cycleTimelineFields (env : JsDateEnv) (cycle : Option LinearCycle) : List EmbedField :=
  if truthyStr (cycle.bind (·.startsAt)) || truthyStr (cycle.bind (·.endsAt)) then
    [{ name := "📅 Cycle Timeline".toList,
       value := joinSep " • ".toList
         ((if truthyStr (cycle.bind (·.startsAt)) then
             ["Starts: ".toList ++ env.toLocaleDateString ((cycle.bind (·.startsAt)).getD [])] else []) ++
          (if truthyStr (cycle.bind (·.endsAt)) then
             ["Ends: ".toList ++ env.toLocaleDateString ((cycle.bind (·.endsAt)).getD [])] else [])),
       inline := some false }]
  else []

/-- `EmbedFactory.createIssueCreateEmbed`. -/
def createIssueCreateEmbed (env : JsDateEnv) (i : LinearIssue) (url : JStr) : DiscordEmbed :=
  { title := "🆕 Issue Created: ".toList ++ i.title,
    url := some url,
    description := (issueCreateDescription i).take 4096,
    color := 3066993,
    fields :=
      [{ name := "🏢 Team".toList, value := jsOr (i.team.map (·.name)) "Unknown Team".toList, inline := some true },
       { name := "📊 Status".toList, value := jsOr (i.state.map (·.name)) "No Status".toList, inline := some true },
       { name := "⚡ Priority".toList, value := jsOr (i.priority.map (·.name)) "No Priority".toList, inline := some true },
       { name := "👤 Assignee".toList, value := userNameOr i.assignee "Unassigned".toList, inline := some true },
       { name := "✨ Created By".toList, value := userNameOr i.creator "Unknown".toList, inline := some true },
       { name := "🔢 Issue ID".toList, value := issueIdText i.identifier i.number, inline := some true }] ++
      cycleTimelineFields env i.cycle,
    author := none,
    footer := some
      { text := "Linear Issue Tracker • Created ".toList ++
          (match i.createdAt with
           | some d => if d.isEmpty then "just now".toList else env.toLocaleString d
           | none => "just now".toList),
        icon_url := some linearLogo },
    timestamp := some (jsOr i.createdAt env.nowIso) }

/-! ### Issue update (the diff) -/

/-- Guard of the `📊 Status` change line:
`updatedFrom.state && state && updatedFrom.state.name !== state.name`. -/
def statusGuard (f : IssueUpdatedFrom) (i : LinearIssue) : Bool :=
  match f.state, i.state with
  | some o, some n => o.name ≠ n.name
  | _, _ => false

/-- Guard of the `👤 Assignee` line: `updatedFrom.assignee?.name !== assignee?.name`. -/
def assigneeGuard (f : IssueUpdatedFrom) (i : LinearIssue) : Bool :=
  f.assignee.map (·.name) ≠ i.assignee.map (·.name)

/-- Guard of the `📝 Title` line: `updatedFrom.title && updatedFrom.title !== title`. -/
def titleGuard (f : IssueUpdatedFrom) (i : LinearIssue) : Bool :=
  match f.title with
  | some t => !t.isEmpty && t ≠ i.title
  | none => false

/-- Guard of the `⚡ Priority` line: `updatedFrom.priority?.name !== priority?.name`. -/
def priorityGuard (f : IssueUpdatedFrom) (i : LinearIssue) : Bool :=
  f.priority.map (·.name) ≠ i.priority.map (·.name)

/-- Guard of the `📋 Project` line. -/
def projectGuard (f : IssueUpdatedFrom) (i : LinearIssue) : Bool :=
  f.project.map (·.name) ≠ i.project.map (·.name)

/-- Guard of the `🔄 Cycle` line. -/
def cycleGuard (f : IssueUpdatedFrom) (i : LinearIssue) : Bool :=
  f.cycle.map (·.name) ≠ i.cycle.map (·.name)

/-- Guard of the `⏱️ Estimate` line: `updatedFrom.estimate !== estimate`. -/
def estimateGuard (f : IssueUpdatedFrom) (i : LinearIssue) : Bool :=
  f.estimate ≠ i.estimate

/-- Guard of the `🏷️ Labels` line: both label arrays present and the sorted
name lists (the in-place `…sort()` of the source) disagree. -/
def labelsGuard (f : IssueUpdatedFrom) (i : LinearIssue) : Bool :=
  match f.labels, i.labels with
  | some ol, some nl => sortJStrs (labelNames ol) ≠ sortJStrs (labelNames nl)
  | _, _ => false

/-- The `📄 Description` line, when one is emitted: the outer strict
inequality, then the truthiness-based added/removed/updated cases. -/
def descriptionChangeLine (f : IssueUpdatedFrom) (i : LinearIssue) : Option JStr :=
  if f.description ≠ i.description then
    if !truthyStr f.description && truthyStr i.description then
      some "📄 **Description:** Added".toList
    else if truthyStr f.description && !truthyStr i.description then
      some "📄 **Description:** Removed".toList
    else if truthyStr f.description && truthyStr i.description then
      some "📄 **Description:** Updated".toList
    else none
  else none

/-- The rendered `👤 Assignee` change line. -/
def assigneeLine (f : IssueUpdatedFrom) (i : LinearIssue) : JStr :=
  "👤 **Assignee:** ".toList ++ userNameOr f.assignee "Unassigned".toList ++
  " → **".toList ++ userNameOr i.assignee "Unassigned".toList ++ "**".toList

/-- The change lines of `createIssueUpdateEmbed`, in push order. -/
def issueUpdateChanges (f : IssueUpdatedFrom) (i : LinearIssue) : List JStr :=
  (if statusGuard f i then
    ["📊 **Status:** ".toList ++ (f.state.map (·.name)).getD [] ++
     " → **".toList ++ (i.state.map (·.name)).getD [] ++ "**".toList] else []) ++
  (if assigneeGuard f i then [assigneeLine f i] else []) ++
  (if titleGuard f i then
    ["📝 **Title:** ".toList ++ f.title.getD [] ++ " → **".toList ++ i.title ++ "**".toList] else []) ++
  (if priorityGuard f i then
    ["⚡ **Priority:** ".toList ++ jsOr (f.priority.map (·.name)) "No Priority".toList ++
     " → **".toList ++ jsOr (i.priority.map (·.name)) "No Priority".toList ++ "**".toList] else []) ++
  (if projectGuard f i then
    ["📋 **Project:** ".toList ++ jsOr (f.project.map (·.name)) "None".toList ++
     " → **".toList ++ jsOr (i.project.map (·.name)) "None".toList ++ "**".toList] else []) ++
  (if cycleGuard f i then
    ["🔄 **Cycle:** ".toList ++ jsOr (f.cycle.map (·.name)) "None".toList ++
     " → **".toList ++ jsOr (i.cycle.map (·.name)) "None".toList ++ "**".toList] else []) ++
  (if estimateGuard f i then
    ["⏱️ **Estimate:** ".toList ++
     (if truthyNum f.estimate then intToJStr (f.estimate.getD 0) ++ " pts".toList else "None".toList) ++
     " → **".toList ++
     (if truthyNum i.estimate then intToJStr (i.estimate.getD 0) ++ " pts".toList else "None".toList) ++
     "**".toList] else []) ++
  (if labelsGuard f i then
    ["🏷️ **Labels:** ".toList ++
     (if 0 < (labelNames (f.labels.getD [])).length then
        joinSep ", ".toList (sortJStrs (labelNames (f.labels.getD []))) else "None".toList) ++
     " → **".toList ++
     (if 0 < (labelNames (i.labels.getD [])).length then
        joinSep ", ".toList (sortJStrs (labelNames (i.labels.getD []))) else "None".toList) ++
     "**".toList] else []) ++
  (match descriptionChangeLine f i with
   | some l => [l]
   | none => [])

/-- The generic no-diff sentence of `createIssueUpdateEmbed`. -/
def issueUpdatedSentence : JStr := "Issue details have been updated.".toList

/-- The description block of `createIssueUpdateEmbed` before the 4096 cut:
the change list (or the generic sentence), then the current description
when present and short enough. -/
def issueUpdateDescription (f : IssueUpdatedFrom) (i : LinearIssue) : JStr :=
  let changes := issueUpdateChanges f i
  let full :=
    if changes.length > 0 then "**Changes Made:**\n".toList ++ joinSep "\n".toList changes
    else issueUpdatedSentence
  if truthyStr i.description ∧ full.length + (i.description.getD []).length < 3500 then
    full ++ "\n\n**Current Description:**\n".toList ++ (i.description.getD []).take 500 ++
      (if 500 < (i.description.getD []).length then "...".toList else [])
  else full

/-- `EmbedFactory.createIssueUpdateEmbed`. -/
def createIssueUpdateEmbed (env : JsDateEnv) (i : LinearIssue) (url : JStr)
    (f : IssueUpdatedFrom) : DiscordEmbed :=
  { title := "🔄 Issue Updated: ".toList ++ i.title,
    url := some url,
    description := (issueUpdateDescription f i).take 4096,
    color := 16776960,
    fields :=
      [{ name := "🏢 Team".toList, value := jsOr (i.team.map (·.name)) "Unknown Team".toList, inline := some true },
       { name := "📊 Current Status".toList, value := jsOr (i.state.map (·.name)) "No Status".toList, inline := some true },
       { name := "👤 Current Assignee".toList, value := userNameOr i.assignee "Unassigned".toList, inline := some true },
       { name := "⚡ Priority".toList, value := jsOr (i.priority.map (·.name)) "No Priority".toList, inline := some true },
       { name := "🔧 Updated By".toList, value := userNameOr i.updater "Unknown".toList, inline := some true },
       { name := "🔢 Issue ID".toList, value := issueIdText i.identifier i.number, inline := some true }] ++
      (if truthyStr (i.project.map (·.name)) then
        [{ name := "📋 Project".toList, value := (i.project.map (·.name)).getD [], inline := some true }] else []) ++
      (if truthyStr (i.cycle.map (·.name)) then
        [{ name := "🔄 Cycle".toList, value := (i.cycle.map (·.name)).getD [], inline := some true }] else []) ++
      (if truthyNum i.estimate then
        [{ name := "⏱️ Estimate".toList, value := intToJStr (i.estimate.getD 0) ++ " pts".toList, inline := some true }] else []),
    author := none,
    footer := some
      { text := "Linear Issue Tracker • Updated ".toList ++
          (match i.updatedAt with
           | some d => if d.isEmpty then "just now".toList else env.toLocaleString d
           | none => "just now".toList),
        icon_url := some linearLogo },
    timestamp := some (jsOr i.updatedAt env.nowIso) }

/-- `EmbedFactory.createIssueDeleteEmbed`. -/
def createIssueDeleteEmbed (env : JsDateEnv) (i : LinearIssue) : DiscordEmbed :=
  { title := "🗑️ Issue Deleted: ".toList ++ i.title,
    url := none,
    description :=
      "🗑️ **Issue has been deleted**\n\nThe issue **".toList ++ i.title ++
      "** (`".toList ++ issueIdText i.identifier i.number ++
      "`) from team **".toList ++ jsOr (i.team.map (·.name)) "Unknown Team".toList ++
      "** has been permanently removed.".toList,
    color := 15158332,
    fields :=
      [{ name := "🏢 Team".toList, value := jsOr (i.team.map (·.name)) "Unknown Team".toList, inline := some true },
       { name := "📊 Last Status".toList, value := jsOr (i.state.map (·.name)) "Unknown".toList, inline := some true },
       { name := "👤 Last Assignee".toList, value := userNameOr i.assignee "Unassigned".toList, inline := some true },
       { name := "✨ Created By".toList, value := userNameOr i.creator "Unknown".toList, inline := some true },
       { name := "⚡ Priority".toList, value := jsOr (i.priority.map (·.name)) "No Priority".toList, inline := some true },
       { name := "🔢 Issue ID".toList, value := issueIdText i.identifier i.number, inline := some true }] ++
      (if truthyStr (i.project.map (·.name)) then
        [{ name := "📋 Project".toList, value := (i.project.map (·.name)).getD [], inline := some true }] else []),
    author := none,
    footer := some
      { text := "Linear Issue Tracker • Deleted just now".toList,
        icon_url := some linearLogo },
    timestamp := some env.nowIso }

/-- `EmbedFactory.createIssueEmbed` (the action dispatcher). -/
def createIssueEmbed (env : JsDateEnv) (action : LinearAction) (i : LinearIssue)
    (url : JStr) (f : IssueUpdatedFrom) : DiscordEmbed :=
  match action with
  | .create => createIssueCreateEmbed env i url
  | .update => createIssueUpdateEmbed env i url f
  | .remove => createIssueDeleteEmbed env i

/-! ### Comment embeds -/

/-- The comment body as rendered (truncated at 1500 with the click-through
note) or the placeholder, plus the issue-context tail. -/
def commentBodyDescription (c : LinearComment) : JStr :=
  let base :=
    if c.body.isEmpty then "*No comment content provided*".toList
    else if 1500 < c.body.length then
      c.body.take 1500 ++ "...\n\n*[Comment truncated - click to view full comment]*".toList
    else c.body
  if truthyStr (c.issue.bind (·.description)) then
    let d := (c.issue.bind (·.description)).getD []
    base ++ "\n\n**Issue Context:**\n*".toList ++
      (if 200 < d.length then d.take 200 ++ "...".toList else d) ++ "*".toList
  else base

/-- The issue-context fields shared by the comment embeds (team, status,
assignee, priority, project — each only when its name is truthy). -/
def commentIssueContextFields (c : LinearComment) : List EmbedField :=
  match c.issue with
  | none => []
  | some issue =>
    (if truthyStr (issue.team.map (·.name)) then
      [{ name := "🏢 Team".toList, value := (issue.team.map (·.name)).getD [], inline := some true }] else []) ++
    (if truthyStr (issue.state.map (·.name)) then
      [{ name := "📊 Issue Status".toList, value := (issue.state.map (·.name)).getD [], inline := some true }] else []) ++
    (if truthyStr (issue.assignee.map (·.name)) then
      [{ name := "👤 Issue Assignee".toList,
         value := userNameOr issue.assignee "Unassigned".toList, inline := some true }] else []) ++
    (if truthyStr (issue.priority.map (·.name)) then
      [{ name := "⚡ Priority".toList, value := (issue.priority.map (·.name)).getD [], inline := some true }] else []) ++
    (if truthyStr (issue.project.map (·.name)) then
      [{ name := "📋 Project".toList, value := (issue.project.map (·.name)).getD [], inline := some true }] else [])

/-- `issue?.title || `Issue #${issueId}``. -/
def commentIssueTitle (c : LinearComment) : JStr :=
  jsOr (c.issue.bind (·.title))
    ("Issue #".toList ++ (match c.issueId with | some s => s | none => "undefined".toList))

/-- `issue?.identifier || `#${issue?.number}` || issueId || "Unknown"` —
the `#…` template is always truthy, so the tail never applies. -/
def commentIssueIdText (c : LinearComment) : JStr :=
  jsOr (c.issue.bind (·.identifier)) (hashNumber (c.issue.bind (·.number)))

/-- `EmbedFactory.createCommentCreateEmbed`. -/
def createCommentCreateEmbed (env : JsDateEnv) (c : LinearComment) (url : JStr) : DiscordEmbed :=
  { title := "💬 New Comment Added".toList,
    url := some url,
    description := (commentBodyDescription c).take 4096,
    color := 5793266,
    fields :=
      [{ name := "💬 Comment By".toList, value := userNameOr c.user "Unknown".toList, inline := some true },
       { name := "📋 Issue".toList, value := commentIssueTitle c, inline := some true },
       { name := "🔢 Issue ID".toList, value := commentIssueIdText c, inline := some true }] ++
      commentIssueContextFields c ++
      (if truthyStr (c.user.bind (·.email)) then
        [{ name := "📧 Author Email".toList, value := (c.user.bind (·.email)).getD [], inline := some true }] else []),
    author := none,
    footer := some
      { text := "Linear Comment • Posted ".toList ++
          (match c.createdAt with
           | some d => if d.isEmpty then "just now".toList else env.toLocaleString d
           | none => "just now".toList),
        icon_url := some linearLogo },
    timestamp := some (jsOr c.createdAt env.nowIso) }

/-- `EmbedFactory.createCommentUpdateEmbed`. -/
def createCommentUpdateEmbed (env : JsDateEnv) (c : LinearComment) (url : JStr) : DiscordEmbed :=
  { title := "✏️ Comment Updated".toList,
    url := some url,
    description :=
      (let base :=
        if c.body.isEmpty then "*No comment content provided*".toList
        else if 1500 < c.body.length then
          c.body.take 1500 ++ "...\n\n*[Comment truncated - click to view full comment]*".toList
        else c.body
      let withEdit := "🔄 **Comment has been edited**\n\n".toList ++ base
      if truthyStr (c.issue.bind (·.description)) then
        let d := (c.issue.bind (·.description)).getD []
        withEdit ++ "\n\n**Issue Context:**\n*".toList ++
          (if 200 < d.length then d.take 200 ++ "...".toList else d) ++ "*".toList
      else withEdit).take 4096,
    color := 16776960,
    fields :=
      [{ name := "💬 Comment By".toList, value := userNameOr c.user "Unknown".toList, inline := some true },
       { name := "📋 Issue".toList, value := commentIssueTitle c, inline := some true },
       { name := "✏️ Status".toList,
         value := if c.edited.getD false then "Edited".toList else "Updated".toList,
         inline := some true },
       { name := "🔢 Issue ID".toList, value := commentIssueIdText c, inline := some true }] ++
      commentIssueContextFields c,
    author := none,
    footer := some
      { text := "Linear Comment • Updated ".toList ++
          (match c.updatedAt with
           | some d => if d.isEmpty then "just now".toList else env.toLocaleString d
           | none => "just now".toList),
        icon_url := some linearLogo },
    timestamp := some (jsOr c.updatedAt env.nowIso) }

/-- `EmbedFactory.createCommentDeleteEmbed`. -/
def createCommentDeleteEmbed (env : JsDateEnv) (c : LinearComment) : DiscordEmbed :=
  { title := "🗑️ Comment Deleted".toList,
    url := none,
    description :=
      "🗑️ **Comment has been deleted**\n\nComment by **".toList ++
      userNameOr c.user "Unknown".toList ++
      "** has been removed from issue **".toList ++
      jsOr (c.issue.bind (·.title))
        ("#".toList ++ (match c.issueId with | some s => s | none => "undefined".toList)) ++
      "**.".toList,
    color := 15158332,
    fields :=
      [{ name := "💬 Comment By".toList, value := userNameOr c.user "Unknown".toList, inline := some true },
       { name := "📋 Issue".toList, value := commentIssueTitle c, inline := some true },
       { name := "🔢 Issue ID".toList, value := commentIssueIdText c, inline := some true }] ++
      (match c.issue with
       | none => []
       | some issue =>
         (if truthyStr (issue.team.map (·.name)) then
           [{ name := "🏢 Team".toList, value := (issue.team.map (·.name)).getD [], inline := some true }] else []) ++
         (if truthyStr (issue.state.map (·.name)) then
           [{ name := "📊 Issue Status".toList, value := (issue.state.map (·.name)).getD [], inline := some true }] else [])),
    author := none,
    footer := some
      { text := "Linear Comment • Deleted just now".toList, icon_url := some linearLogo },
    timestamp := some env.nowIso }

/-- `EmbedFactory.createCommentEmbed` (the action dispatcher). -/
def createCommentEmbed (env : JsDateEnv) (action : LinearAction) (c : LinearComment)
    (url : JStr) : DiscordEmbed :=
  match action with
  | .create => createCommentCreateEmbed env c url
  | .update => createCommentUpdateEmbed env c url
  | .remove => createCommentDeleteEmbed env c

/-! ### Other entity embeds -/

/-- `EmbedFactory.createProjectEmbed`. -/
def createProjectEmbed (env : JsDateEnv) (action : LinearAction) (d : GenericData)
    (url : JStr) : DiscordEmbed :=
  { title := "Project ".toList ++ actionTitleWord action ++ ": ".toList ++
      jsOr d.name (d.id.getD "undefined".toList),
    url := some url,
    description := jsOr (d.description.map (·.take 2000))
      ("Project was ".toList ++ actionTitleWord action ++ " in Linear.".toList),
    color := getActionColor action,
    fields :=
      [{ name := "Name".toList, value := jsOr d.name "Unknown".toList, inline := some true },
       { name := "State".toList, value := jsOr d.state "Unknown".toList, inline := some true }],
    author := none,
    footer := some { text := "Linear Project".toList, icon_url := some linearLogo },
    timestamp := some env.nowIso }

/-- `EmbedFactory.createTeamEmbed`. -/
def createTeamEmbed (env : JsDateEnv) (action : LinearAction) (d : GenericData)
    (url : JStr) : DiscordEmbed :=
  { title := "Team ".toList ++ actionTitleWord action ++ ": ".toList ++
      jsOr d.name (jsOr d.key (d.id.getD "undefined".toList)),
    url := some url,
    description := jsOr (d.description.map (·.take 2000))
      ("Team was ".toList ++ actionTitleWord action ++ " in Linear.".toList),
    color := getActionColor action,
    fields :=
      [{ name := "Name".toList, value := jsOr d.name "Unknown".toList, inline := some true },
       { name := "Key".toList, value := jsOr d.key "Unknown".toList, inline := some true }],
    author := none,
    footer := some { text := "Linear Team".toList, icon_url := some linearLogo },
    timestamp := some env.nowIso }

/-- `EmbedFactory.createUserEmbed`. -/
def createUserEmbed (env : JsDateEnv) (action : LinearAction) (d : GenericData)
    (url : JStr) : DiscordEmbed :=
  { title := "User ".toList ++ actionTitleWord action ++ ": ".toList ++
      jsOr d.name (jsOr d.displayName (d.id.getD "undefined".toList)),
    url := some url,
    description := "User was ".toList ++ actionTitleWord action ++ " in Linear.".toList,
    color := getActionColor action,
    fields :=
      [{ name := "Name".toList, value := jsOr d.name "Unknown".toList, inline := some true },
       { name := "Display Name".toList, value := jsOr d.displayName "Unknown".toList, inline := some true },
       { name := "Email".toList, value := jsOr d.email "Unknown".toList, inline := some true }],
    author := none,
    footer := some { text := "Linear User".toList, icon_url := some linearLogo },
    timestamp := some env.nowIso }

/-- `EmbedFactory.createCycleEmbed`. -/
def createCycleEmbed (env : JsDateEnv) (action : LinearAction) (d : GenericData)
    (url : JStr) : DiscordEmbed :=
  { title := "Cycle ".toList ++ actionTitleWord action ++ ": ".toList ++
      jsOr d.name (d.id.getD "undefined".toList),
    url := some url,
    description := "Cycle was ".toList ++ actionTitleWord action ++ " in Linear.".toList,
    color := getActionColor action,
    fields :=
      [{ name := "Name".toList, value := jsOr d.name "Unknown".toList, inline := some true },
       { name := "Number".toList,
         value := (match d.number with
           | some n => intToJStr n
           | none => "Unknown".toList),
         inline := some true },
       { name := "Starts At".toList,
         value := if truthyStr d.startsAt then env.toLocaleDateString (d.startsAt.getD [])
           else "Unknown".toList,
         inline := some true },
       { name := "Ends At".toList,
         value := if truthyStr d.endsAt then env.toLocaleDateString (d.endsAt.getD [])
           else "Unknown".toList,
         inline := some true }],
    author := none,
    footer := some { text := "Linear Cycle".toList, icon_url := some linearLogo },
    timestamp := some env.nowIso }

/-- `EmbedFactory.createLabelEmbed`. -/
def createLabelEmbed (env : JsDateEnv) (action : LinearAction) (d : GenericData)
    (url : JStr) : DiscordEmbed :=
  { title := "Label ".toList ++ actionTitleWord action ++ ": ".toList ++
      jsOr d.name (d.id.getD "undefined".toList),
    url := some url,
    description := jsOr (d.description.map (·.take 2000))
      ("Label was ".toList ++ actionTitleWord action ++ " in Linear.".toList),
    color := getActionColor action,
    fields :=
      [{ name := "Name".toList, value := jsOr d.name "Unknown".toList, inline := some true },
       { name := "Color".toList, value := jsOr d.color "Unknown".toList, inline := some true }],
    author := none,
    footer := some { text := "Linear Label".toList, icon_url := some linearLogo },
    timestamp := some env.nowIso }

/-- `EmbedFactory.createGenericEmbed`. -/
def createGenericEmbed (env : JsDateEnv) (entityType : JStr) (action : LinearAction)
    (d : GenericData) (url : JStr) : DiscordEmbed :=
  { title := entityType ++ " ".toList ++ actionTitleWord action,
    url := some url,
    description := jsOr (d.description.map (·.take 2000))
      (entityType ++ " was ".toList ++ actionTitleWord action ++ " in Linear.".toList),
    color := getActionColor action,
    fields :=
      [{ name := "Name".toList,
         value := jsOr d.name (jsOr d.title (entityType ++ " ".toList ++ (d.id.getD "undefined".toList))),
         inline := some true },
       { name := "Type".toList, value := entityType, inline := some true }],
    author := none,
    footer := some { text := "Linear ".toList ++ entityType, icon_url := some linearLogo },
    timestamp := some env.nowIso }

/-- `EmbedFactory.createEntityEmbed` (the type dispatcher for entities other
than Issue and Comment). -/
def createEntityEmbed (env : JsDateEnv) (entityType : JStr) (action : LinearAction)
    (d : GenericData) (url : JStr) : DiscordEmbed :=
  if entityType = "Project".toList then createProjectEmbed env action d url
  else if entityType = "Team".toList then createTeamEmbed env action d url
  else if entityType = "User".toList then createUserEmbed env action d url
  else if entityType = "Cycle".toList then createCycleEmbed env action d url
  else if entityType = "IssueLabel".toList then createLabelEmbed env action d url
  else createGenericEmbed env entityType action d url

/-! ## Shared concrete fixtures -/

/-- A response with no rate-limit headers. -/
def noHeaders : ResponseHeaders := ⟨none, none, none, none, none, none, none⟩

/-- A concrete date environment for witnesses (renders dates as themselves). -/
def idDateEnv : JsDateEnv := ⟨id, id, []⟩

/-! ## C7 — stale timestamps are rejected -/

/-- C7: with a non-empty secret and verification enabled, `verifySignature`
returns `false` whenever the claimed timestamp differs from the current time
by more than the configured window (in milliseconds), whatever the
signature and payload. -/
theorem c7_stale_timestamp_rejected (cfg : SignatureConfig)
    (sig payload secret : JStr) (t now : Int)
    (hsec : secret ≠ []) (hen : cfg.enableSignatureVerification = true)
    (hstale : cfg.signatureTimeWindow * 1000 < |now - t|) :
    verifySignature cfg sig payload secret (some t) now = false := by
  simp only [verifySignature, List.isEmpty_iff, hen]
  simp [hsec, hstale]

/-- Witness for C7 at a concrete stale input. -/
theorem c7_witness :
    (("k".toList : JStr) ≠ [] ∧
      (⟨true, 60⟩ : SignatureConfig).enableSignatureVerification = true ∧
      (⟨true, 60⟩ : SignatureConfig).signatureTimeWindow * 1000 < |(100000 : Int) - 0|) ∧
    verifySignature ⟨true, 60⟩ "sig".toList "body".toList "k".toList (some 0) 100000 = false :=
  ⟨⟨by decide, rfl, by decide⟩,
    c7_stale_timestamp_rejected ⟨true, 60⟩ "sig".toList "body".toList "k".toList 0 100000
      (by decide) rfl (by decide)⟩

/-! ## C10 — a missing/NaN timestamp bypasses the replay check -/

/-- C10: with a non-empty secret and verification enabled, when the body
carries no numeric `webhookTimestamp` (`undefined` or `NaN`, modelled as
`none`), the freshness comparison never rejects — `Math.abs(now - undefined)`
is `NaN` and `NaN > timeWindow` is `false` — so acceptance is decided by the
HMAC comparison alone. -/
theorem c10_missing_timestamp_bypasses_replay (cfg : SignatureConfig)
    (sig payload secret : JStr) (now : Int)
    (hsec : secret ≠ []) (hen : cfg.enableSignatureVerification = true) :
    verifySignature cfg sig payload secret none now =
      compareSignatures sig (hmacSha256Hex secret payload) := by
  simp only [verifySignature, List.isEmpty_iff, hen]
  simp [hsec]

/-- Witness for C10 at a concrete input. -/
theorem c10_witness :
    (("k".toList : JStr) ≠ [] ∧
      (⟨true, 60⟩ : SignatureConfig).enableSignatureVerification = true) ∧
    verifySignature ⟨true, 60⟩ "sig".toList "body".toList "k".toList none 12345 =
      compareSignatures "sig".toList (hmacSha256Hex "k".toList "body".toList) :=
  ⟨⟨by decide, rfl⟩,
    c10_missing_timestamp_bypasses_replay ⟨true, 60⟩ "sig".toList "body".toList "k".toList
      12345 (by decide) rfl⟩

/-! ## C9 — every received response resolves as success -/

/-- C9: whenever the first attempt receives an HTTP response — any status,
429 and 5xx included, because `validateStatus: () => true` makes axios
resolve on every status and nothing later inspects it — `sendWebhook`
records the response's rate-limit headers and returns success after that
one attempt; the retry/classification path can only run when the transport
itself throws. -/
theorem c9_response_always_success (maxRetries : Nat)
    (oracle : Nat → AttemptOutcome) (status : Nat) (statusText : JStr)
    (headers : ResponseHeaders)
    (hfirst : oracle 0 = .response status statusText headers) :
    sendWebhook maxRetries oracle = .success 1 (updateRateLimitInfo headers) := by
  simp [sendWebhook, sendWebhookGo, hfirst]

/-- Witness for C9: a 429 response (rate limited!) is still an immediate
success. -/
theorem c9_witness :
    ((fun _ => .response 429 "Too Many Requests".toList noHeaders : Nat → AttemptOutcome) 0 =
      .response 429 "Too Many Requests".toList noHeaders) ∧
    sendWebhook 3 (fun _ => .response 429 "Too Many Requests".toList noHeaders) =
      .success 1 (updateRateLimitInfo noHeaders) :=
  ⟨rfl, c9_response_always_success 3 _ 429 "Too Many Requests".toList noHeaders rfl⟩

/-! ## C2 — the retry classification is dead code for HTTP responses -/

/-- C2 (code bug, evaluated): with the default `maxRetries = 3`,
an attempt whose response is HTTP 500 — or 429 — resolves as a success on
the first attempt, with no retry and no error; only a transport error (no
response) drives the retry loop, which then throws the aggregated
`failed after 4 attempts` error carrying the last underlying message; yet
`isRetryableError` itself classifies 500/429 retryable and 404 fatal, and
`parseError` builds exactly the errors that classification expects — the
classification machinery is simply unreachable for received responses
because `validateStatus: () => true` stops axios from ever throwing them. -/
theorem c2_responses_never_retried :
    sendWebhook 3 (fun _ => .response 500 "Internal Server Error".toList noHeaders) =
      .success 1 (updateRateLimitInfo noHeaders) ∧
    sendWebhook 3 (fun _ => .response 429 "Too Many Requests".toList noHeaders) =
      .success 1 (updateRateLimitInfo noHeaders) ∧
    sendWebhook 3 (fun _ => .netError "ECONNRESET".toList) =
      .exhausted 4 (some ("Network error: ECONNRESET".toList)) ∧
    isRetryableError { message := [], status := some 500, retryAfter := none } = true ∧
    isRetryableError { message := [], status := some 429, retryAfter := none } = true ∧
    isRetryableError { message := [], status := some 404, retryAfter := none } = false ∧
    isRetryableError { message := [], status := none, retryAfter := none } = true ∧
    parseError { response := some (429, "Too Many Requests".toList,
        { noHeaders with retryAfter := some "5".toList }), code := none, message := [] } =
      { message := "Discord rate limited. Retry after: 5s".toList,
        status := some 429, retryAfter := some 5 } := by
  refine ⟨by decide, by decide, by decide, by decide, by decide, by decide, by decide, by decide⟩

/-! ## C6 — backoff delay computation -/

/-- C6 counterexample: a response that *carried* a `retry-after` value of
`0` seconds does not get the promised `0 * 1000 + buffer` wait — `if
(retryAfter)` treats `0` as falsy, so the exponential path runs instead
(here: 1000 ms, not the 100 ms the claim prescribes). -/
theorem c6_counterexample :
    calculateDelay 1000 100 1 (some 0) (1 / 2) = 1000 ∧
    (1000 : ℚ) ≠ 0 * 1000 + 100 := by
  constructor
  · norm_num [calculateDelay]
  · norm_num

/-- C6 amended: a *positive* `retry-after` yields `retryAfter * 1000 +
buffer` regardless of the attempt number (a zero value falls through to the
exponential path); otherwise the wait is `base * 2^(attempt-1)` perturbed by
the ±25% jitter term, floored at `base` and capped at 30 s — in particular
it always lies between `base` and 30000 ms, and before clamping the
perturbed delay lies within ±25% of the exponential. -/
theorem c6_amended_backoff (base buffer : ℚ) (attempt : Nat) (ra : Int) (r : ℚ)
    (hra : ra ≠ 0) (hr0 : 0 ≤ r) (hr1 : r ≤ 1)
    (hbase : 0 < base) (hcap : base ≤ 30000) :
    calculateDelay base buffer attempt (some ra) r = (ra : ℚ) * 1000 + buffer ∧
    calculateDelay base buffer attempt none r =
      min (max base (base * (2 : ℚ) ^ ((attempt : ℤ) - 1) * (1 + (r * 2 - 1) / 4))) 30000 ∧
    base ≤ calculateDelay base buffer attempt none r ∧
    calculateDelay base buffer attempt none r ≤ 30000 ∧
    base * (2 : ℚ) ^ ((attempt : ℤ) - 1) * (3 / 4) ≤
      base * (2 : ℚ) ^ ((attempt : ℤ) - 1) * (1 + (r * 2 - 1) / 4) ∧
    base * (2 : ℚ) ^ ((attempt : ℤ) - 1) * (1 + (r * 2 - 1) / 4) ≤
      base * (2 : ℚ) ^ ((attempt : ℤ) - 1) * (5 / 4) := by
  have hepos : (0 : ℚ) < base * (2 : ℚ) ^ ((attempt : ℤ) - 1) :=
    mul_pos hbase (zpow_pos (by norm_num) _)
  refine ⟨?_, ?_, ?_, ?_, ?_, ?_⟩
  · simp [calculateDelay, hra]
  · simp only [calculateDelay]
    norm_num
    ring_nf
  · simp only [calculateDelay]
    exact le_min (le_max_left _ _) hcap
  · simp only [calculateDelay]
    exact min_le_right _ _
  · have : (3 / 4 : ℚ) ≤ 1 + (r * 2 - 1) / 4 := by linarith
    exact mul_le_mul_of_nonneg_left this hepos.le
  · have : 1 + (r * 2 - 1) / 4 ≤ (5 / 4 : ℚ) := by linarith
    exact mul_le_mul_of_nonneg_left this hepos.le

/-- Witness for the amended C6 at a concrete input. -/
theorem c6_witness :
    ((5 : Int) ≠ 0 ∧ (0 : ℚ) ≤ 1 / 2 ∧ (1 / 2 : ℚ) ≤ 1 ∧
      (0 : ℚ) < 1000 ∧ (1000 : ℚ) ≤ 30000) ∧
    (calculateDelay 1000 100 2 (some 5) (1 / 2) = (5 : Int) * 1000 + 100 ∧
      calculateDelay 1000 100 2 none (1 / 2) =
        min (max 1000 (1000 * (2 : ℚ) ^ ((2 : ℤ) - 1) * (1 + ((1 : ℚ) / 2 * 2 - 1) / 4))) 30000 ∧
      (1000 : ℚ) ≤ calculateDelay 1000 100 2 none (1 / 2) ∧
      calculateDelay 1000 100 2 none (1 / 2) ≤ 30000 ∧
      1000 * (2 : ℚ) ^ ((2 : ℤ) - 1) * (3 / 4) ≤
        1000 * (2 : ℚ) ^ ((2 : ℤ) - 1) * (1 + ((1 : ℚ) / 2 * 2 - 1) / 4) ∧
      1000 * (2 : ℚ) ^ ((2 : ℤ) - 1) * (1 + ((1 : ℚ) / 2 * 2 - 1) / 4) ≤
        1000 * (2 : ℚ) ^ ((2 : ℤ) - 1) * (5 / 4)) :=
  ⟨⟨by norm_num, by norm_num, by norm_num, by norm_num, by norm_num⟩,
    by
      have h := c6_amended_backoff 1000 100 2 5 (1 / 2)
        (by norm_num) (by norm_num) (by norm_num) (by norm_num) (by norm_num)
      simpa using h⟩

/-! ## C8 — embed colors by action -/

/-- C8 counterexample: a structurally valid Comment *create* envelope gets
the fixed blue color 5793266, not the success color 3066993 the claim
assigns to every create. -/
theorem c8_counterexample :
    (createCommentEmbed idDateEnv .create
      { id := "c1".toList, body := "hi".toList } "u".toList).color = 5793266 ∧
    (5793266 : Int) ≠ 3066993 := ⟨rfl, by decide⟩

/-- C8 amended: for every structurally valid envelope the embed color is
determined by the action alone — success green for create, warning yellow
for update, danger red for remove — for Issues and for every non-Issue,
non-Comment entity type (via `getActionColor`); Comments are the one
exception: a Comment create is the fixed blue 5793266, while Comment
update/remove follow the warning/danger colors. -/
theorem c8_colors_by_action :
    (∀ env action i url f, (createIssueEmbed env action i url f).color = getActionColor action) ∧
    (∀ env action c url, (createCommentEmbed env action c url).color =
      match action with
      | .create => 5793266
      | .update => 16776960
      | .remove => 15158332) ∧
    (∀ env entityType action d url,
      (createEntityEmbed env entityType action d url).color = getActionColor action) ∧
    getActionColor .create = 3066993 ∧
    getActionColor .update = 16776960 ∧
    getActionColor .remove = 15158332 := by
  refine ⟨?_, ?_, ?_, rfl, rfl, rfl⟩
  · intro env action i url f
    cases action <;> rfl
  · intro env action c url
    cases action <;> rfl
  · intro env entityType action d url
    unfold createEntityEmbed
    split_ifs <;> rfl

/-! ## Digest-shape lemmas for C1 -/

/-- A SHA-256 digest is 32 bytes, each below 256. -/
theorem sha256_bytes (msg : List Nat) :
    (sha256 msg).length = 32 ∧ ∀ b ∈ sha256 msg, b < 256 := by
  constructor
  · rfl
  · intro b hb
    simp only [sha256, sha256Words, wordBytes, List.flatMap, List.map, List.flatten,
      List.mem_append, List.mem_cons, List.not_mem_nil, or_false] at hb
    rcases hb with h | h | h | h | h | h | h | h <;>
      rcases h with h | h | h | h <;> subst h <;> exact Nat.mod_lt _ (by norm_num)

/-- Hex digits of values below 16 are ASCII. -/
theorem hexChar_ascii : ∀ d < 16, (hexChar d).toNat < 128 := by decide

/-- Every character of `hexDigest bs` is ASCII when the bytes are bytes. -/
theorem hexDigest_ascii (bs : List Nat) (h : ∀ b ∈ bs, b < 256) :
    ∀ c ∈ hexDigest bs, c.toNat < 128 := by
  induction bs with
  | nil => simp [hexDigest]
  | cons b t ih =>
    intro c hc
    have hb : b < 256 := h b (List.mem_cons_self ..)
    rw [show hexDigest (b :: t) = byteHex b ++ hexDigest t from rfl] at hc
    rcases List.mem_append.mp hc with hc | hc
    · simp only [byteHex, List.mem_cons, List.not_mem_nil, or_false] at hc
      rcases hc with hc | hc
      · subst hc; exact hexChar_ascii _ (Nat.div_lt_of_lt_mul (by omega))
      · subst hc; exact hexChar_ascii _ (Nat.mod_lt _ (by norm_num))
    · exact ih (fun x hx => h x (List.mem_cons_of_mem _ hx)) c hc

/-- On an all-ASCII string, UTF-8 encoding is the per-character code list. -/
theorem utf8Encode_ascii (l : JStr) (h : ∀ c ∈ l, c.toNat < 128) :
    utf8Encode l = l.map Char.toNat := by
  induction l with
  | nil => rfl
  | cons c t ih =>
    have hc : c.toNat < 128 := h c (List.mem_cons_self ..)
    simp only [utf8Encode, List.flatMap_cons, List.map_cons]
    rw [show utf8Char c = [c.toNat] by simp [utf8Char, hc]]
    simpa [utf8Encode] using ih fun x hx => h x (List.mem_cons_of_mem _ hx)

/-- `hexDigest` has two characters per byte. -/
theorem hexDigest_length (bs : List Nat) : (hexDigest bs).length = 2 * bs.length := by
  induction bs with
  | nil => rfl
  | cons b t ih => simp [hexDigest, byteHex] at ih ⊢; omega

/-- The UTF-8 byte length of an HMAC hex digest is 64. -/
theorem hmacHex_utf8_length (secret payload : JStr) :
    (utf8Encode (hmacSha256Hex secret payload)).length = 64 := by
  have hb := sha256_bytes (((if 64 < (utf8Encode secret).length then sha256 (utf8Encode secret)
      else utf8Encode secret) ++
      List.replicate (64 - (if 64 < (utf8Encode secret).length then sha256 (utf8Encode secret)
      else utf8Encode secret).length) 0).map (Nat.xor 0x5c) ++
      sha256 (((if 64 < (utf8Encode secret).length then sha256 (utf8Encode secret)
      else utf8Encode secret) ++
      List.replicate (64 - (if 64 < (utf8Encode secret).length then sha256 (utf8Encode secret)
      else utf8Encode secret).length) 0).map (Nat.xor 0x36) ++ utf8Encode payload))
  rw [hmacSha256Hex, hmacSha256,
    utf8Encode_ascii _ (hexDigest_ascii _ hb.2), List.length_map, hexDigest_length, hb.1]

/-- Characters with equal codes are equal. -/
theorem char_toNat_inj {c d : Char} (h : c.toNat = d.toNat) : c = d := by
  have := congrArg Char.ofNat h
  rwa [Char.ofNat_toNat, Char.ofNat_toNat] at this

/-! ## C1 — the signature scheme -/

/-- C1 counterexample: a signature header in the documented composite format
`t=<unix_ms>,v1=<hex_digest>` — with the digest part the genuine HMAC-SHA256
hex of the exact raw body under the secret, a fresh timestamp, verification
enabled and a non-empty secret — is **rejected**: `verifySignature` compares
the whole header against the bare hex digest. -/
theorem c1_counterexample :
    verifySignature ⟨true, 60⟩
      ("t=1000,v1=".toList ++ hmacSha256Hex "k".toList "x".toList)
      "x".toList "k".toList (some 1000) 1000 = false ∧
    ("k".toList : JStr) ≠ [] ∧ |(1000 : Int) - 1000| ≤ 60 * 1000 := by
  refine ⟨by decide, by decide, by decide⟩

/-- C1 amended: the signature header the service accepts is the **bare**
lowercase hex HMAC-SHA256 digest of the exact raw body under the secret
(the claimed timestamp travels separately in the body's
`webhookTimestamp`): with a non-empty secret, verification enabled and a
fresh timestamp, the bare digest verifies; any header in the composite
`t=…,v1=<digest>` format is rejected; and tampering with the body is
rejected whenever the tampered body's digest differs (HMAC collisions being
the only escape). -/
theorem c1_signature_scheme (cfg : SignatureConfig) (secret body : JStr) (t now : Int)
    (hsec : secret ≠ []) (hen : cfg.enableSignatureVerification = true)
    (hfresh : |now - t| ≤ cfg.signatureTimeWindow * 1000) :
    verifySignature cfg (hmacSha256Hex secret body) body secret (some t) now = true ∧
    (∀ tstr : JStr,
      verifySignature cfg ("t=".toList ++ tstr ++ ",v1=".toList ++ hmacSha256Hex secret body)
        body secret (some t) now = false) ∧
    (∀ body' : JStr, hmacSha256Hex secret body' ≠ hmacSha256Hex secret body →
      verifySignature cfg (hmacSha256Hex secret body) body' secret (some t) now = false) := by
  have hstale : ¬(cfg.signatureTimeWindow * 1000 < |now - t|) := not_lt.mpr hfresh
  refine ⟨?_, ?_, ?_⟩
  · simp only [verifySignature, List.isEmpty_iff, hen]
    simp [hsec, hstale, compareSignatures]
  · intro tstr
    set sig : JStr := "t=".toList ++ tstr ++ ",v1=".toList ++ hmacSha256Hex secret body with hsig
    have hlen : (utf8Encode sig).length ≠ (utf8Encode (hmacSha256Hex secret body)).length := by
      rw [hsig]
      simp only [utf8Encode, List.flatMap_append, List.length_append]
      have h64 : (hmacSha256Hex secret body).flatMap utf8Char = utf8Encode (hmacSha256Hex secret body) := rfl
      rw [h64, hmacHex_utf8_length]
      have h1 : (("t=".toList : JStr).flatMap utf8Char).length = 2 := by decide
      have h2 : ((",v1=".toList : JStr).flatMap utf8Char).length = 4 := by decide
      omega
    simp only [verifySignature, List.isEmpty_iff, hen]
    simp [hsec, hstale, compareSignatures, hlen]
  · intro body' hne
    simp only [verifySignature, List.isEmpty_iff, hen]
    have hbytes : utf8Encode (hmacSha256Hex secret body) ≠ utf8Encode (hmacSha256Hex secret body') := by
      intro h
      apply hne
      have ha : ∀ s p : JStr, ∀ c ∈ hmacSha256Hex s p, c.toNat < 128 := by
        intro s p
        exact hexDigest_ascii _ (sha256_bytes _).2
      rw [utf8Encode_ascii _ (ha secret body), utf8Encode_ascii _ (ha secret body')] at h
      have := List.map_injective_iff.mpr (fun a b hab => char_toNat_inj hab) h
      exact this.symm
    have hlen : (utf8Encode (hmacSha256Hex secret body)).length =
        (utf8Encode (hmacSha256Hex secret body')).length := by
      rw [hmacHex_utf8_length, hmacHex_utf8_length]
    simp only [compareSignatures, hlen]
    simp [hsec, hstale, hbytes]

/-- Witness for the amended C1: a concrete bare-digest acceptance. -/
theorem c1_witness :
    (("k".toList : JStr) ≠ [] ∧
      (⟨true, 60⟩ : SignatureConfig).enableSignatureVerification = true ∧
      |(1000 : Int) - 500| ≤ (⟨true, 60⟩ : SignatureConfig).signatureTimeWindow * 1000) ∧
    verifySignature ⟨true, 60⟩ (hmacSha256Hex "k".toList "x".toList)
      "x".toList "k".toList (some 500) 1000 = true :=
  ⟨⟨by decide, rfl, by decide⟩,
    (c1_signature_scheme ⟨true, 60⟩ "k".toList "x".toList 500 1000
      (by decide) rfl (by decide)).1⟩

/-! ## Whitespace-normal strings (proof layer for the optimizer)

`enhanceMarkdown` collapses every whitespace run to one space and trims the
ends; its outputs are exactly the *whitespace-normal* strings: every
whitespace character is a lone `' '`, not at either end. -/

/-- Checker for whitespace normality; the flag records whether a space
immediately precedes (so a further space would form a run — and with the
flag initially `true`, a leading space is also rejected). -/
def cleanChk : Bool → JStr → Bool
  | _, [] => true
  | prev, c :: cs =>
    if c = ' ' then !prev && cleanChk true cs else !isWS c && cleanChk false cs

/-- No trailing whitespace. -/
def lastNotWS (l : JStr) : Prop := ∀ c, l.getLast? = some c → isWS c = false

/-- Whitespace-normal. -/
def Clean (l : JStr) : Prop := cleanChk true l = true ∧ lastNotWS l

theorem cleanChk_only_space {l : JStr} :
    ∀ {prev}, cleanChk prev l = true → ∀ c ∈ l, isWS c = true → c = ' ' := by
  induction l with
  | nil => simp
  | cons a t ih =>
    intro prev h c hc hw
    rw [cleanChk] at h
    rcases List.mem_cons.mp hc with rfl | hc
    · by_cases ha : c = ' '
      · exact ha
      · simp [ha] at h
        exact absurd hw (by simp [h.1])
    · by_cases ha : a = ' '
      · simp [ha] at h
        exact ih h.2 c hc hw
      · simp [ha] at h
        exact ih h.2 c hc hw

theorem cleanChk_false_of_true {l : JStr} (h : cleanChk true l = true) :
    cleanChk false l = true := by
  cases l with
  | nil => rfl
  | cons a t =>
    rw [cleanChk] at h ⊢
    by_cases ha : a = ' '
    · simp [ha] at h
    · simpa [ha] using h

theorem cleanChk_take {l : JStr} :
    ∀ {prev n}, cleanChk prev l = true → cleanChk prev (l.take n) = true := by
  induction l with
  | nil => simp
  | cons a t ih =>
    intro prev n h
    cases n with
    | zero => rfl
    | succ m =>
      rw [List.take_succ_cons]
      rw [cleanChk] at h ⊢
      by_cases ha : a = ' '
      · simp [ha] at h ⊢
        exact ⟨h.1, ih h.2⟩
      · simp [ha] at h ⊢
        exact ⟨h.1, ih h.2⟩

theorem collapseWSGo_clean : ∀ (l : JStr) (prev), cleanChk prev (collapseWSGo prev l) = true := by
  intro l
  induction l with
  | nil => intro prev; rfl
  | cons a t ih =>
    intro prev
    rw [collapseWSGo]
    by_cases hw : isWS a = true
    · simp only [hw, if_true]
      cases prev with
      | true => simpa using ih true
      | false =>
        simp only [Bool.false_eq_true, if_false]
        rw [cleanChk]
        simpa using ih true
    · simp only [hw, Bool.false_eq_true, if_false]
      rw [cleanChk]
      have ha : a ≠ ' ' := by rintro rfl; simp [isWS] at hw
      simp [ha, hw]
      exact ih false

theorem collapseWSGo_id {l : JStr} :
    ∀ {prev}, cleanChk prev l = true → collapseWSGo prev l = l := by
  induction l with
  | nil => intro prev _; rfl
  | cons a t ih =>
    intro prev h
    rw [cleanChk] at h
    rw [collapseWSGo]
    by_cases ha : a = ' '
    · subst ha
      rw [if_pos rfl] at h
      simp only [show isWS ' ' = true from rfl, if_true]
      rcases Bool.and_eq_true_iff.mp h with ⟨hp, ht⟩
      cases prev with
      | true => simp at hp
      | false => simp [ih ht]
    · simp only [ha, if_false] at h
      rcases Bool.and_eq_true_iff.mp h with ⟨hw, ht⟩
      have hw' : isWS a = false := by simpa using hw
      simp [hw', ih ht]

theorem cleanChk_true_dropWhile_id {l : JStr} (h : cleanChk true l = true) :
    l.dropWhile isWS = l := by
  cases l with
  | nil => rfl
  | cons a t =>
    rw [cleanChk] at h
    by_cases ha : a = ' '
    · simp [ha] at h
    · simp only [ha, if_false] at h
      rcases Bool.and_eq_true_iff.mp h with ⟨hw, _⟩
      simp only [List.dropWhile_cons]
      simp [show isWS a = false by simpa using hw]

theorem cleanChk_dropWhile {l : JStr} (h : cleanChk false l = true) :
    cleanChk true (l.dropWhile isWS) = true := by
  cases l with
  | nil => rfl
  | cons a t =>
    rw [cleanChk] at h
    by_cases ha : a = ' '
    · subst ha
      rw [if_pos rfl] at h
      rcases Bool.and_eq_true_iff.mp h with ⟨_, ht⟩
      rw [List.dropWhile_cons]
      simp only [show isWS ' ' = true from rfl, if_true]
      rw [cleanChk_true_dropWhile_id ht]
      exact ht
    · simp only [ha, if_false] at h
      rcases Bool.and_eq_true_iff.mp h with ⟨hw, ht⟩
      rw [List.dropWhile_cons]
      simp only [show isWS a = false by simpa using hw, Bool.false_eq_true, if_false]
      rw [cleanChk]
      simp [ha, show isWS a = false by simpa using hw]
      exact ht

theorem dropWhile_eq_drop_form (q : Char → Bool) :
    ∀ l : JStr, ∃ m, l.dropWhile q = l.drop m := by
  intro l
  induction l with
  | nil => exact ⟨0, rfl⟩
  | cons a t ih =>
    rw [List.dropWhile_cons]
    by_cases hq : q a = true
    · rcases ih with ⟨m, hm⟩
      exact ⟨m + 1, by simp [hq, hm]⟩
    · exact ⟨0, by simp [hq]⟩

theorem trimJS_take_form (l : JStr) : ∃ n, trimJS l = (l.dropWhile isWS).take n := by
  rcases dropWhile_eq_drop_form isWS (l.dropWhile isWS).reverse with ⟨m, hm⟩
  refine ⟨(l.dropWhile isWS).length - m, ?_⟩
  rw [trimJS, hm, ← List.rdrop_eq_reverse_drop_reverse, List.rdrop]

theorem trimJS_eq_rdropWhile (l : JStr) :
    trimJS l = List.rdropWhile isWS (l.dropWhile isWS) := rfl

theorem trimJS_clean {l : JStr} (h : cleanChk false l = true) : Clean (trimJS l) := by
  constructor
  · rcases trimJS_take_form l with ⟨n, hn⟩
    rw [hn]
    exact cleanChk_take (cleanChk_dropWhile h)
  · intro c hc
    rw [trimJS_eq_rdropWhile] at hc
    have hne : List.rdropWhile isWS (l.dropWhile isWS) ≠ [] := by
      intro h0
      rw [h0] at hc
      simp at hc
    have hlast := List.rdropWhile_last_not isWS (l.dropWhile isWS) hne
    rw [List.getLast?_eq_getLast _ hne] at hc
    have : c = (List.rdropWhile isWS (l.dropWhile isWS)).getLast hne := by
      injection hc with hc'
      exact hc'.symm
    rw [this]
    simpa using hlast

theorem enhance_clean (l : JStr) : Clean (enhanceMarkdown l) :=
  trimJS_clean (collapseWSGo_clean l false)

theorem enhance_id {l : JStr} (h : Clean l) : enhanceMarkdown l = l := by
  have h1 : collapseWS l = l := collapseWSGo_id (cleanChk_false_of_true h.1)
  have h2 : l.dropWhile isWS = l := cleanChk_true_dropWhile_id h.1
  rw [enhanceMarkdown, h1, trimJS_eq_rdropWhile, h2]
  refine List.rdropWhile_eq_self_iff.mpr fun hl => ?_
  have := h.2 (l.getLast hl) (List.getLast?_eq_getLast _ hl)
  simp [this]

theorem cleanChk_no_double {l : JStr} :
    ∀ {prev : Bool} {i : Nat}, cleanChk prev l = true → l[i]? = some ' ' →
      l[i + 1]? ≠ some ' ' := by
  induction l with
  | nil => simp
  | cons a t ih =>
    intro prev i h hi
    rw [cleanChk] at h
    cases i with
    | zero =>
      simp only [List.getElem?_cons_zero, Option.some_inj] at hi
      subst hi
      rw [if_pos rfl] at h
      rcases Bool.and_eq_true_iff.mp h with ⟨_, ht⟩
      intro hcontra
      rw [show (0 + 1 : Nat) = 1 from rfl] at hcontra
      have h1 : t[0]? = some ' ' := by simpa using hcontra
      cases t with
      | nil => simp at h1
      | cons b t2 =>
        simp only [List.getElem?_cons_zero, Option.some_inj] at h1
        subst h1
        rw [cleanChk, if_pos rfl] at ht
        simp at ht
    | succ j =>
      have h1 : t[j]? = some ' ' := by simpa using hi
      have ht : cleanChk (a = ' ') t = true := by
        by_cases ha : a = ' '
        · rw [if_pos ha] at h
          simpa [ha] using (Bool.and_eq_true_iff.mp h).2
        · rw [if_neg ha] at h
          simpa [ha] using (Bool.and_eq_true_iff.mp h).2
      intro hcontra
      have h2 : t[j + 1]? = some ' ' := by simpa using hcontra
      exact ih ht h1 h2

theorem cleanChk_append_dots {l : JStr} :
    ∀ {prev}, cleanChk prev l = true → lastNotWS l →
      cleanChk prev (l ++ "...".toList) = true := by
  induction l with
  | nil =>
    intro prev _ _
    cases prev <;> decide
  | cons a t ih =>
    intro prev h hlast
    rw [cleanChk] at h
    rw [List.cons_append, cleanChk]
    by_cases ha : a = ' '
    · subst ha
      rw [if_pos rfl] at h ⊢
      rcases Bool.and_eq_true_iff.mp h with ⟨hp, ht⟩
      cases t with
      | nil =>
        exfalso
        have := hlast ' ' (by simp)
        simp [isWS] at this
      | cons b t2 =>
        have hlast' : lastNotWS (b :: t2) := by
          intro c hc
          exact hlast c (by rw [List.getLast?_cons_cons]; exact hc)
        simp only [hp, Bool.not_false, Bool.true_and] at *
        exact ih ht hlast'
    · rw [if_neg ha] at h ⊢
      rcases Bool.and_eq_true_iff.mp h with ⟨hw, ht⟩
      rw [Bool.and_eq_true_iff]
      refine ⟨hw, ?_⟩
      cases t with
      | nil => decide
      | cons b t2 =>
        have hlast' : lastNotWS (b :: t2) := by
          intro c hc
          exact hlast c (by rw [List.getLast?_cons_cons]; exact hc)
        exact ih ht hlast'

theorem clean_append_dots {l : JStr} (h : Clean l) :
    Clean (l ++ "...".toList) := by
  refine ⟨cleanChk_append_dots h.1 h.2, ?_⟩
  intro c hc
  rw [List.getLast?_append_of_ne_nil _ (show ("...".toList : JStr) ≠ [] by decide)] at hc
  simp only [show ("...".toList : JStr) = ['.', '.', '.'] from rfl] at hc
  simp at hc
  subst hc
  rfl

/-! ## `lastIndexOfChar` and `truncateText` facts -/

theorem lastIndexOfChar_ge_neg_one (c : Char) (l : JStr) : -1 ≤ lastIndexOfChar c l := by
  induction l with
  | nil => simp [lastIndexOfChar]
  | cons a t ih =>
    rw [lastIndexOfChar]
    split_ifs with h1 h2 <;> omega

theorem lastIndexOfChar_lt_length (c : Char) (l : JStr) :
    lastIndexOfChar c l < l.length := by
  induction l with
  | nil => simp [lastIndexOfChar]
  | cons a t ih =>
    rw [lastIndexOfChar]
    simp only [List.length_cons]
    split_ifs with h1 h2 <;> push_cast <;> omega

theorem lastIndexOfChar_not_mem {c : Char} {l : JStr} (h : c ∉ l) :
    lastIndexOfChar c l = -1 := by
  induction l with
  | nil => rfl
  | cons a t ih =>
    rw [lastIndexOfChar]
    have hat : a ≠ c := fun hac => h (hac ▸ List.mem_cons_self ..)
    have ht : c ∉ t := fun hct => h (List.mem_cons_of_mem _ hct)
    rw [ih ht]
    simp [hat]

theorem lastIndexOfChar_getElem {c : Char} {l : JStr}
    (h : 0 ≤ lastIndexOfChar c l) : l[(lastIndexOfChar c l).toNat]? = some c := by
  induction l with
  | nil => simp [lastIndexOfChar] at h
  | cons a t ih =>
    rw [lastIndexOfChar] at h ⊢
    by_cases h1 : 0 ≤ lastIndexOfChar c t
    · rw [if_pos h1] at h ⊢
      have : ((lastIndexOfChar c t) + 1).toNat = (lastIndexOfChar c t).toNat + 1 := by omega
      rw [this]
      simpa using ih h1
    · rw [if_neg h1] at h ⊢
      by_cases h2 : a = c
      · simp [h2]
      · rw [if_neg h2] at h ⊢
        omega

theorem lastIndexOfChar_ge {c : Char} {l : JStr} {i : Nat}
    (h : l[i]? = some c) : (i : Int) ≤ lastIndexOfChar c l := by
  induction l generalizing i with
  | nil => simp at h
  | cons a t ih =>
    rw [lastIndexOfChar]
    cases i with
    | zero =>
      simp only [List.getElem?_cons_zero, Option.some_inj] at h
      subst h
      split_ifs with h1 h2
      · omega
      · omega
      · exact absurd rfl h2
    | succ j =>
      have hj : t[j]? = some c := by simpa using h
      have := ih hj
      have hge : 0 ≤ lastIndexOfChar c t := le_trans (by omega) this
      rw [if_pos hge]
      omega

theorem truncateText_eq (l : JStr) (q : ℚ) :
    truncateText l q =
      if (l.length : ℚ) ≤ q then l
      else
        if q * (4 / 5) < ((max (lastIndexOfChar ' ' (l.take (jsSubstrEnd q)))
            (lastIndexOfChar '\n' (l.take (jsSubstrEnd q))) : Int) : ℚ) then
          l.take (max (lastIndexOfChar ' ' (l.take (jsSubstrEnd q)))
            (lastIndexOfChar '\n' (l.take (jsSubstrEnd q)))).toNat
        else l.take (jsSubstrEnd q) := rfl

theorem truncateText_eq_self {l : JStr} {q : ℚ} (h : (l.length : ℚ) ≤ q) :
    truncateText l q = l := by
  rw [truncateText_eq, if_pos h]

theorem truncateText_take_form (l : JStr) (q : ℚ) : ∃ n, truncateText l q = l.take n := by
  rw [truncateText_eq]
  split_ifs with h1 h2
  · exact ⟨l.length, (List.take_length l).symm⟩
  · exact ⟨_, rfl⟩
  · exact ⟨_, rfl⟩

theorem truncateText_length_le (l : JStr) (q : ℚ) :
    (truncateText l q).length ≤ l.length := by
  rcases truncateText_take_form l q with ⟨n, hn⟩
  rw [hn]
  simpa using List.length_take_le n l

theorem jsSubstrEnd_le (n : Nat) (q : ℚ) (h : (n : ℚ) ≤ q) : n ≤ jsSubstrEnd q := by
  rw [jsSubstrEnd]
  split_ifs with h0
  · have h1 : (n : ℚ) ≤ 0 := le_trans h h0
    have h2 : n = 0 := by exact_mod_cast le_antisymm h1 (by positivity)
    omega
  · have h1 : (n : ℤ) ≤ q.floor := Rat.le_floor.mpr (by exact_mod_cast h)
    omega

theorem jsSubstrEnd_cast_le {q : ℚ} (h0 : 0 ≤ q) : (jsSubstrEnd q : ℚ) ≤ q := by
  rw [jsSubstrEnd]
  split_ifs with h1
  · simpa using h0
  · have h3 : (0 : ℤ) ≤ q.floor := Rat.le_floor.mpr (by simpa using h0)
    have h2 : (q.floor : ℚ) ≤ q := Rat.le_floor.mp le_rfl
    have h4 : ((q.floor.toNat : ℕ) : ℚ) = ((q.floor : ℤ) : ℚ) := by
      exact_mod_cast congrArg (fun z : ℤ => (z : ℚ)) (Int.toNat_of_nonneg h3)
    rw [h4]
    exact h2

theorem truncateText_length_le_floor {l : JStr} {q : ℚ} :
    (truncateText l q).length ≤ max (jsSubstrEnd q) l.length := by
  rcases truncateText_take_form l q with ⟨n, hn⟩
  rw [hn]
  exact le_trans (by simpa using List.length_take_le n l) (le_max_right _ _)

theorem truncateText_length_le_floor_of_gt {l : JStr} {q : ℚ}
    (h : ¬(l.length : ℚ) ≤ q) : (truncateText l q).length ≤ jsSubstrEnd q := by
  rw [truncateText_eq, if_neg h]
  split_ifs with h2
  · have hb := lastIndexOfChar_lt_length ' ' (l.take (jsSubstrEnd q))
    have hn := lastIndexOfChar_lt_length '\n' (l.take (jsSubstrEnd q))
    have hlen : (l.take (jsSubstrEnd q)).length ≤ jsSubstrEnd q := by
      simpa using List.length_take_le _ _
    have hm : (max (lastIndexOfChar ' ' (l.take (jsSubstrEnd q)))
        (lastIndexOfChar '\n' (l.take (jsSubstrEnd q)))).toNat ≤ jsSubstrEnd q := by
      rcases max_cases (lastIndexOfChar ' ' (l.take (jsSubstrEnd q)))
        (lastIndexOfChar '\n' (l.take (jsSubstrEnd q))) with ⟨heq, _⟩ | ⟨heq, _⟩ <;>
        rw [heq] <;> omega
    exact le_trans (by simpa using List.length_take_le _ l) hm
  · simpa using List.length_take_le _ _

theorem truncateText_ne_nil {l : JStr} {q : ℚ} (hl : l ≠ []) (hq : 1 ≤ q) :
    truncateText l q ≠ [] := by
  rw [truncateText_eq]
  split_ifs with h1 h2
  · exact hl
  · have hb : (0 : ℚ) < q * (4 / 5) := by linarith
    have hbpos : (0 : Int) < max (lastIndexOfChar ' ' (l.take (jsSubstrEnd q)))
        (lastIndexOfChar '\n' (l.take (jsSubstrEnd q))) := by
      exact_mod_cast lt_trans hb h2
    intro hcontra
    rcases List.take_eq_nil_iff.mp hcontra with hc | hc
    · omega
    · exact hl hc
  · have hm : 1 ≤ jsSubstrEnd q := jsSubstrEnd_le 1 q (by exact_mod_cast hq)
    intro hcontra
    rcases List.take_eq_nil_iff.mp hcontra with hc | hc
    · omega
    · exact hl hc

theorem truncateText_clean {l : JStr} {q : ℚ} (h : Clean l) (hq : (10 : ℚ) ≤ q) :
    Clean (truncateText l q) := by
  have hq0 : (0 : ℚ) ≤ q := by linarith
  constructor
  · rcases truncateText_take_form l q with ⟨n, hn⟩
    rw [hn]
    exact cleanChk_take h.1
  · rw [truncateText_eq]
    split_ifs with h1 h2
    · exact h.2
    all_goals {
      have hNoNl : '\n' ∉ l := by
        intro hmem
        have := cleanChk_only_space h.1 '\n' hmem (by decide)
        simp at this
      have hNoNlT : '\n' ∉ l.take (jsSubstrEnd q) := fun hm => hNoNl (List.mem_of_mem_take hm)
      have hln : lastIndexOfChar '\n' (l.take (jsSubstrEnd q)) = -1 :=
        lastIndexOfChar_not_mem hNoNlT
      have hBls : max (lastIndexOfChar ' ' (l.take (jsSubstrEnd q)))
          (lastIndexOfChar '\n' (l.take (jsSubstrEnd q))) =
          lastIndexOfChar ' ' (l.take (jsSubstrEnd q)) := by
        rw [hln]
        exact max_eq_left (lastIndexOfChar_ge_neg_one ' ' _)
      have hmq : ((jsSubstrEnd q : Nat) : ℚ) ≤ q := jsSubstrEnd_cast_le hq0
      have hm10 : 10 ≤ jsSubstrEnd q := jsSubstrEnd_le 10 q (by exact_mod_cast hq)
      have hlgt : q < (l.length : ℚ) := not_le.mp h1
      have hmlen : jsSubstrEnd q < l.length := by exact_mod_cast lt_of_le_of_lt hmq hlgt
      have hTlen : (l.take (jsSubstrEnd q)).length = jsSubstrEnd q := by
        rw [List.length_take]
        omega
      have hlsT := lastIndexOfChar_lt_length ' ' (l.take (jsSubstrEnd q))
      first
      | -- boundary branch: the cut ends just before the boundary space
        (rw [hBls] at h2 ⊢
         have hls9 : (9 : Int) ≤ lastIndexOfChar ' ' (l.take (jsSubstrEnd q)) := by
           have h8 : (8 : ℚ) < ((lastIndexOfChar ' ' (l.take (jsSubstrEnd q)) : Int) : ℚ) := by
             nlinarith
           have h8' : (8 : Int) < lastIndexOfChar ' ' (l.take (jsSubstrEnd q)) := by
             exact_mod_cast h8
           omega
         set ls := lastIndexOfChar ' ' (l.take (jsSubstrEnd q)) with hlsdef
         have hlsm : ls.toNat < jsSubstrEnd q := by rw [hTlen] at hlsT; omega
         have hTsp : (l.take (jsSubstrEnd q))[ls.toNat]? = some ' ' :=
           lastIndexOfChar_getElem (by omega)
         have hlsp : l[ls.toNat]? = some ' ' := by
           rw [List.getElem?_take] at hTsp
           rw [if_pos hlsm] at hTsp
           exact hTsp
         intro c hc
         rw [List.getLast?_eq_getElem?] at hc
         have hOlen : (l.take ls.toNat).length = ls.toNat := by
           rw [List.length_take]
           omega
         rw [hOlen] at hc
         rw [List.getElem?_take, if_pos (by omega : ls.toNat - 1 < ls.toNat)] at hc
         by_contra hws
         have hws' : isWS c = true := by simpa using hws
         have hcsp : c = ' ' :=
           cleanChk_only_space h.1 c (List.getElem?_mem hc) hws'
         subst hcsp
         have hsucc : l[(ls.toNat - 1) + 1]? = some ' ' := by
           rw [show (ls.toNat - 1) + 1 = ls.toNat by omega]
           exact hlsp
         exact cleanChk_no_double h.1 hc hsucc)
      | -- hard-cut branch: a trailing space would have been the boundary
        (intro c hc
         rw [List.getLast?_eq_getElem?, hTlen] at hc
         rw [List.getElem?_take, if_pos (by omega : jsSubstrEnd q - 1 < jsSubstrEnd q)] at hc
         by_contra hws
         have hws' : isWS c = true := by simpa using hws
         have hcsp : c = ' ' :=
           cleanChk_only_space h.1 c (List.getElem?_mem hc) hws'
         subst hcsp
         have hback : (l.take (jsSubstrEnd q))[jsSubstrEnd q - 1]? = some ' ' := by
           rw [List.getElem?_take, if_pos (by omega : jsSubstrEnd q - 1 < jsSubstrEnd q)]
           exact hc
         have hge : ((jsSubstrEnd q - 1 : Nat) : Int) ≤
             lastIndexOfChar ' ' (l.take (jsSubstrEnd q)) := lastIndexOfChar_ge hback
         rw [hBls] at h2
         push_neg at h2
         have hfl : q - 1 < ((jsSubstrEnd q : Nat) : ℚ) := by
           rw [jsSubstrEnd, if_neg (by linarith : ¬q ≤ 0)]
           have h4 : ¬(q.floor + 1 ≤ q.floor) := by omega
           have h5 : ¬(((q.floor + 1 : Int) : ℚ) ≤ q) := fun hcon => h4 (Rat.le_floor.mpr hcon)
           push_neg at h5
           have h6 : (0 : ℤ) ≤ q.floor := Rat.le_floor.mpr (by simpa using hq0)
           have h7 : ((q.floor.toNat : ℕ) : ℚ) = ((q.floor : ℤ) : ℚ) := by
             exact_mod_cast congrArg (fun z : ℤ => (z : ℚ)) (Int.toNat_of_nonneg h6)
           rw [h7]
           push_cast at h5 ⊢
           linarith
         have hcast : ((jsSubstrEnd q - 1 : Nat) : ℚ) ≤
             ((lastIndexOfChar ' ' (l.take (jsSubstrEnd q)) : Int) : ℚ) := by
           exact_mod_cast hge
         have hcast2 : ((jsSubstrEnd q - 1 : Nat) : ℚ) = ((jsSubstrEnd q : Nat) : ℚ) - 1 := by
           have : 1 ≤ jsSubstrEnd q := by omega
           push_cast [this]
           ring
         nlinarith)
    }

/-! ## Optimizer component lemmas -/

theorem collapseWSGo_length_le (l : JStr) : ∀ prev, (collapseWSGo prev l).length ≤ l.length := by
  induction l with
  | nil => intro prev; simp [collapseWSGo]
  | cons a t ih =>
    intro prev
    rw [collapseWSGo]
    split_ifs with h1 h2
    · exact le_trans (ih true) (by simp)
    · simpa using ih true
    · simpa using ih false

theorem trimJS_length_le (l : JStr) : (trimJS l).length ≤ l.length := by
  rw [trimJS]
  calc ((((l.dropWhile isWS).reverse).dropWhile isWS).reverse).length
      = (((l.dropWhile isWS).reverse).dropWhile isWS).length := List.length_reverse _
    _ ≤ ((l.dropWhile isWS).reverse).length :=
        List.Sublist.length_le (List.dropWhile_sublist _)
    _ = (l.dropWhile isWS).length := List.length_reverse _
    _ ≤ l.length := List.Sublist.length_le (List.dropWhile_sublist _)

theorem enhance_length_le (l : JStr) : (enhanceMarkdown l).length ≤ l.length :=
  le_trans (trimJS_length_le _) (collapseWSGo_length_le l false)

theorem trimJS_id {l : JStr} (h : Clean l) : trimJS l = l := by
  rw [trimJS_eq_rdropWhile, cleanChk_true_dropWhile_id h.1]
  refine List.rdropWhile_eq_self_iff.mpr fun hl => ?_
  have := h.2 (l.getLast hl) (List.getLast?_eq_getLast _ hl)
  simp [this]

theorem fixNL3_id {l : JStr} (h : '\n' ∉ l) : ∀ r, fixNL3 r l = l := by
  induction l with
  | nil => intro r; rfl
  | cons a t ih =>
    intro r
    rw [fixNL3]
    have ha : a ≠ '\n' := fun hx => h (hx ▸ List.mem_cons_self ..)
    rw [if_neg ha]
    rw [ih (fun hx => h (List.mem_cons_of_mem _ hx)) 0]

theorem sentenceBreaks_id : ∀ l : JStr, '\n' ∉ l → sentenceBreaks l = l := by
  intro l
  induction l with
  | nil => intro _; rfl
  | cons a t ih =>
    intro h
    have ht : '\n' ∉ t := fun hx => h (List.mem_cons_of_mem _ hx)
    cases t with
    | nil => rfl
    | cons b t2 =>
      cases t2 with
      | nil => rfl
      | cons c rest =>
        rw [sentenceBreaks]
        have hb : (b == '\n') = false := by
          have : b ≠ '\n' := fun hx => ht (hx ▸ List.mem_cons_self ..)
          simpa using this
        rw [if_neg (by simp [hb])]
        rw [ih ht]

theorem noNl_of_clean {l : JStr} (h : Clean l) : '\n' ∉ l := by
  intro hmem
  have := cleanChk_only_space h.1 '\n' hmem (by decide)
  simp at this

theorem optimizeLineBreaks_id {l : JStr} (h : Clean l) : optimizeLineBreaks l = l := by
  rw [optimizeLineBreaks, fixNL3_id (noNl_of_clean h) 0,
    sentenceBreaks_id l (noNl_of_clean h), trimJS_id h]

theorem truncateText_length_le_substrEnd (l : JStr) (q : ℚ) (hq : 0 ≤ q) :
    (truncateText l q).length ≤ jsSubstrEnd q := by
  by_cases h : (l.length : ℚ) ≤ q
  · rw [truncateText_eq_self h]
    exact jsSubstrEnd_le _ _ h
  · exact truncateText_length_le_floor_of_gt h

/-! ## `optimizeContent` -/

theorem optimizeContent_eq (c : JStr) :
    optimizeContent c =
      if c.isEmpty then []
      else if 2000 < (enhanceMarkdown c).length then
        truncateText (enhanceMarkdown c) (2000 - 3) ++ "...".toList
      else enhanceMarkdown c := by
  rw [optimizeContent]

theorem jsSubstrEnd_1997 : jsSubstrEnd (2000 - 3 : ℚ) = 1997 := by
  norm_num [jsSubstrEnd, Rat.floor_def']
  rfl

theorem optimizeContent_cases (c : JStr) :
    optimizeContent c = [] ∨
      (Clean (optimizeContent c) ∧ (optimizeContent c).length ≤ 2000) := by
  rw [optimizeContent_eq]
  split_ifs with h1 h2
  · exact Or.inl rfl
  · refine Or.inr ⟨clean_append_dots (truncateText_clean (enhance_clean c) (by norm_num)), ?_⟩
    rw [List.length_append]
    have := truncateText_length_le_substrEnd (enhanceMarkdown c) (2000 - 3 : ℚ) (by norm_num)
    rw [jsSubstrEnd_1997] at this
    simp only [show ("...".toList : JStr).length = 3 from rfl]
    omega
  · exact Or.inr ⟨enhance_clean c, not_lt.mp h2⟩

theorem optimizeContent_le_2000 (c : JStr) : (optimizeContent c).length ≤ 2000 := by
  rcases optimizeContent_cases c with h | ⟨_, h⟩
  · simp [h]
  · exact h

theorem optimizeContent_length_le (c : JStr) : (optimizeContent c).length ≤ c.length := by
  rw [optimizeContent_eq]
  split_ifs with h1 h2
  · simp
  · have hb : (truncateText (enhanceMarkdown c) (2000 - 3) ++ "...".toList).length ≤ 2000 := by
      rw [List.length_append]
      have := truncateText_length_le_substrEnd (enhanceMarkdown c) (2000 - 3 : ℚ) (by norm_num)
      rw [jsSubstrEnd_1997] at this
      simp only [show ("...".toList : JStr).length = 3 from rfl]
      omega
    have := enhance_length_le c
    omega
  · exact enhance_length_le c

theorem optimizeContent_idem (c : JStr) :
    optimizeContent (optimizeContent c) = optimizeContent c := by
  rcases optimizeContent_cases c with h | ⟨hcl, hle⟩
  · rw [h]
    rfl
  · by_cases he : (optimizeContent c).isEmpty
    · conv_lhs => rw [optimizeContent_eq]
      rw [if_pos he]
      exact (List.isEmpty_iff.mp he).symm
    · conv_lhs => rw [optimizeContent_eq]
      rw [if_neg he, enhance_id hcl, if_neg (not_lt.mpr hle)]

/-! ## `optimizeTitle`, `optimizeDescription`, `optimizeFieldValue` -/

theorem jsSubstrEnd_253 : jsSubstrEnd (256 - 3 : ℚ) = 253 := by
  norm_num [jsSubstrEnd, Rat.floor_def']
  rfl

theorem jsSubstrEnd_4093 : jsSubstrEnd (4096 - 3 : ℚ) = 4093 := by
  norm_num [jsSubstrEnd, Rat.floor_def']
  rfl

theorem jsSubstrEnd_1021 : jsSubstrEnd (1024 - 3 : ℚ) = 1021 := by
  norm_num [jsSubstrEnd, Rat.floor_def']
  rfl

theorem jsSubstrEnd_2048 : jsSubstrEnd (2048 : ℚ) = 2048 := by
  norm_num [jsSubstrEnd, Rat.floor_def']
  rfl

theorem jsSubstrEnd_256 : jsSubstrEnd (256 : ℚ) = 256 := by
  norm_num [jsSubstrEnd, Rat.floor_def']
  rfl

theorem optimizeTitle_eq (p : Bool) (t : JStr) :
    optimizeTitle p t =
      if t.isEmpty then []
      else if 256 < (addTitleEmojis p t).length then
        truncateText (addTitleEmojis p t) (256 - 3) ++ "...".toList
      else addTitleEmojis p t := by
  rw [optimizeTitle]

theorem optimizeTitle_le_256 (p : Bool) (t : JStr) : (optimizeTitle p t).length ≤ 256 := by
  rw [optimizeTitle_eq]
  split_ifs with h1 h2
  · simp
  · rw [List.length_append]
    have := truncateText_length_le_substrEnd (addTitleEmojis p t) (256 - 3 : ℚ) (by norm_num)
    rw [jsSubstrEnd_253] at this
    simp only [show ("...".toList : JStr).length = 3 from rfl]
    omega
  · omega

theorem optimizeTitle_idem_prod (t : JStr) :
    optimizeTitle true (optimizeTitle true t) = optimizeTitle true t := by
  have hadd : ∀ u : JStr, addTitleEmojis true u = u := fun u => rfl
  by_cases he : (optimizeTitle true t).isEmpty
  · conv_lhs => rw [optimizeTitle_eq]
    rw [if_pos he]
    exact (List.isEmpty_iff.mp he).symm
  · conv_lhs => rw [optimizeTitle_eq]
    rw [if_neg he, hadd, if_neg (not_lt.mpr (optimizeTitle_le_256 true t))]

theorem optLineBreaks_enhance (d : JStr) :
    optimizeLineBreaks (enhanceMarkdown d) = enhanceMarkdown d :=
  optimizeLineBreaks_id (enhance_clean d)

theorem optimizeDescription_eq (d : JStr) :
    optimizeDescription d =
      if d.isEmpty then []
      else if 4096 < (enhanceMarkdown d).length then
        truncateText (enhanceMarkdown d) (4096 - 3) ++ "...".toList
      else enhanceMarkdown d := by
  rw [optimizeDescription, optLineBreaks_enhance]

theorem optimizeDescription_cases (d : JStr) :
    optimizeDescription d = [] ∨
      (Clean (optimizeDescription d) ∧ (optimizeDescription d).length ≤ 4096) := by
  rw [optimizeDescription_eq]
  split_ifs with h1 h2
  · exact Or.inl rfl
  · refine Or.inr ⟨clean_append_dots (truncateText_clean (enhance_clean d) (by norm_num)), ?_⟩
    rw [List.length_append]
    have := truncateText_length_le_substrEnd (enhanceMarkdown d) (4096 - 3 : ℚ) (by norm_num)
    rw [jsSubstrEnd_4093] at this
    simp only [show ("...".toList : JStr).length = 3 from rfl]
    omega
  · exact Or.inr ⟨enhance_clean d, not_lt.mp h2⟩

theorem optimizeDescription_le_4096 (d : JStr) : (optimizeDescription d).length ≤ 4096 := by
  rcases optimizeDescription_cases d with h | ⟨_, h⟩
  · simp [h]
  · exact h

theorem optimizeDescription_idem (d : JStr) :
    optimizeDescription (optimizeDescription d) = optimizeDescription d := by
  rcases optimizeDescription_cases d with h | ⟨hcl, hle⟩
  · rw [h]
    rfl
  · by_cases he : (optimizeDescription d).isEmpty
    · conv_lhs => rw [optimizeDescription_eq]
      rw [if_pos he]
      exact (List.isEmpty_iff.mp he).symm
    · conv_lhs => rw [optimizeDescription_eq]
      rw [if_neg he, enhance_id hcl, if_neg (not_lt.mpr hle)]

theorem clean_NA : Clean ("N/A".toList) := by
  constructor
  · decide
  · intro c hc
    simp [show ("N/A".toList : JStr) = ['N', '/', 'A'] from rfl, List.getLast?] at hc
    subst hc
    rfl

theorem optimizeFieldValue_eq (v : JStr) :
    optimizeFieldValue v =
      if v.isEmpty then "N/A".toList
      else if 1024 < (enhanceMarkdown v).length then
        truncateText (enhanceMarkdown v) (1024 - 3) ++ "...".toList
      else enhanceMarkdown v := by
  rw [optimizeFieldValue]

theorem optimizeFieldValue_clean_le (v : JStr) :
    Clean (optimizeFieldValue v) ∧ (optimizeFieldValue v).length ≤ 1024 := by
  rw [optimizeFieldValue_eq]
  split_ifs with h1 h2
  · exact ⟨clean_NA, by decide⟩
  · refine ⟨clean_append_dots (truncateText_clean (enhance_clean v) (by norm_num)), ?_⟩
    rw [List.length_append]
    have := truncateText_length_le_substrEnd (enhanceMarkdown v) (1024 - 3 : ℚ) (by norm_num)
    rw [jsSubstrEnd_1021] at this
    simp only [show ("...".toList : JStr).length = 3 from rfl]
    omega
  · exact ⟨enhance_clean v, not_lt.mp h2⟩

theorem optimizeFieldValue_fix {v : JStr} (hne : optimizeFieldValue v ≠ []) :
    optimizeFieldValue (optimizeFieldValue v) = optimizeFieldValue v := by
  have h := optimizeFieldValue_clean_le v
  rw [optimizeFieldValue_eq (optimizeFieldValue v),
    if_neg (by simpa [List.isEmpty_iff] using hne), enhance_id h.1, if_neg (not_lt.mpr h.2)]

theorem optimizeFieldValue_length_le {v : JStr} (hv : v ≠ []) :
    (optimizeFieldValue v).length ≤ v.length := by
  rw [optimizeFieldValue_eq, if_neg (by simpa [List.isEmpty_iff] using hv)]
  split_ifs with h2
  · have hb : (truncateText (enhanceMarkdown v) (1024 - 3) ++ "...".toList).length ≤ 1024 := by
      rw [List.length_append]
      have := truncateText_length_le_substrEnd (enhanceMarkdown v) (1024 - 3 : ℚ) (by norm_num)
      rw [jsSubstrEnd_1021] at this
      simp only [show ("...".toList : JStr).length = 3 from rfl]
      omega
    have := enhance_length_le v
    omega
  · exact enhance_length_le v

/-! ## `optimizeField` and `optimizeEmbed` -/

theorem optimizeField_name_ne (f : EmbedField) : (optimizeField f).name ≠ [] := by
  rw [optimizeField]
  refine truncateText_ne_nil ?_ (by norm_num)
  split_ifs with h
  · decide
  · simpa [List.isEmpty_iff] using h

theorem optimizeField_name_le (f : EmbedField) : (optimizeField f).name.length ≤ 256 := by
  rw [optimizeField]
  have := truncateText_length_le_substrEnd
    (if f.name.isEmpty then "Field".toList else f.name) (256 : ℚ) (by norm_num)
  rw [jsSubstrEnd_256] at this
  exact this

theorem optimizeField_value_le (f : EmbedField) : (optimizeField f).value.length ≤ 1024 :=
  (optimizeFieldValue_clean_le _).2

theorem optimizeField_fix {f : EmbedField} (hv : (optimizeField f).value ≠ []) :
    optimizeField (optimizeField f) = optimizeField f := by
  have hn := optimizeField_name_ne f
  have hnl := optimizeField_name_le f
  rw [optimizeField, EmbedField.mk.injEq]
  refine ⟨?_, ?_, rfl⟩
  · rw [if_neg (by simpa [List.isEmpty_iff] using hn)]
    exact truncateText_eq_self (by exact_mod_cast hnl)
  · rw [if_neg (by simpa [List.isEmpty_iff] using hv)]
    rw [optimizeField] at hv ⊢
    exact optimizeFieldValue_fix hv

theorem optimizeField_name_length_le {f : EmbedField} (h : f.name ≠ []) :
    (optimizeField f).name.length ≤ f.name.length := by
  rw [optimizeField, if_neg (by simpa [List.isEmpty_iff] using h)]
  exact truncateText_length_le _ _

theorem optimizeField_value_length_le {f : EmbedField} (h : f.value ≠ []) :
    (optimizeField f).value.length ≤ f.value.length := by
  show (optimizeFieldValue (if f.value.isEmpty then "Empty".toList else f.value)).length ≤
    f.value.length
  rw [if_neg (by simpa [List.isEmpty_iff] using h)]
  exact optimizeFieldValue_length_le h

/-- The limits every `optimizeEmbed` output satisfies, plus the facts about
its fields needed to re-run it. -/
theorem optimizeEmbed_limits (p : Bool) (e : DiscordEmbed) :
    (optimizeEmbed p e).title.length ≤ 256 ∧
    (optimizeEmbed p e).description.length ≤ 4096 ∧
    (optimizeEmbed p e).fields.length ≤ 25 ∧
    (∀ f ∈ (optimizeEmbed p e).fields,
      f.name.length ≤ 256 ∧ f.value.length ≤ 1024 ∧ f.name ≠ [] ∧ f.value ≠ []) ∧
    (∀ ft, (optimizeEmbed p e).footer = some ft → ft.text.length ≤ 2048) := by
  refine ⟨optimizeTitle_le_256 p e.title, optimizeDescription_le_4096 e.description, ?_, ?_, ?_⟩
  · rw [optimizeEmbed]
    dsimp only
    split_ifs with h
    · simp
    · calc (((e.fields.take 25).map optimizeField).filter
            (fun f => !f.name.isEmpty && !f.value.isEmpty)).length
          ≤ ((e.fields.take 25).map optimizeField).length := List.length_filter_le _ _
        _ = (e.fields.take 25).length := List.length_map _ _
        _ ≤ 25 := by simpa using List.length_take_le _ _
  · intro f hf
    rw [optimizeEmbed] at hf
    dsimp only at hf
    split_ifs at hf with h
    · simp at hf
    · have hmem := List.mem_of_mem_filter hf
      have hpred := List.of_mem_filter hf
      rcases List.mem_map.mp hmem with ⟨f0, _, rfl⟩
      refine ⟨optimizeField_name_le f0, optimizeField_value_le f0, ?_, ?_⟩
      · simpa [List.isEmpty_iff] using (Bool.and_eq_true_iff.mp hpred).1
      · simpa [List.isEmpty_iff] using (Bool.and_eq_true_iff.mp hpred).2
  · intro ft hft
    rw [optimizeEmbed] at hft
    dsimp only at hft
    cases hfo : e.footer with
    | none => rw [hfo] at hft; exact absurd hft (by simp)
    | some ft0 =>
      rw [hfo] at hft
      rw [Option.map_some'] at hft
      injection hft with hft2
      subst hft2
      have := truncateText_length_le_substrEnd ft0.text (2048 : ℚ) (by norm_num)
      rw [jsSubstrEnd_2048] at this
      exact this

theorem mem_optimizeEmbed_fields {p : Bool} {e : DiscordEmbed} {f : EmbedField}
    (hf : f ∈ (optimizeEmbed p e).fields) : ∃ f0, f = optimizeField f0 := by
  rw [optimizeEmbed] at hf
  dsimp only at hf
  split_ifs at hf with h
  · simp at hf
  · rcases List.mem_map.mp (List.mem_of_mem_filter hf) with ⟨f0, _, rfl⟩
    exact ⟨f0, rfl⟩

set_option maxHeartbeats 1000000 in
/-- In production mode, `optimizeEmbed` is a fixed point on its own outputs. -/
theorem optimizeEmbed_fix (e : DiscordEmbed) :
    optimizeEmbed true (optimizeEmbed true e) = optimizeEmbed true e := by
  have hlim := optimizeEmbed_limits true e
  rcases hlim with ⟨_, _, hflen, hfields, _⟩
  rw [optimizeEmbed, DiscordEmbed.mk.injEq]
  refine ⟨optimizeTitle_idem_prod _, rfl, optimizeDescription_idem _, rfl, ?_, rfl, ?_, rfl⟩
  · -- fields
    by_cases h : (optimizeEmbed true e).fields.isEmpty
    · rw [if_pos h]
      exact (List.isEmpty_iff.mp h).symm
    · rw [if_neg h]
      rw [List.take_of_length_le hflen]
      have hmap : (optimizeEmbed true e).fields.map optimizeField =
          (optimizeEmbed true e).fields := by
        conv_rhs => rw [← List.map_id ((optimizeEmbed true e).fields)]
        refine List.map_congr_left fun f hf => ?_
        rcases mem_optimizeEmbed_fields hf with ⟨f0, rfl⟩
        exact optimizeField_fix (hfields _ hf).2.2.2
      rw [hmap]
      refine List.filter_eq_self.mpr fun f hf => ?_
      have := hfields f hf
      simp [List.isEmpty_iff, this.2.2.1, this.2.2.2]
  · -- footer
    cases hfo : (optimizeEmbed true e).footer with
    | none => rfl
    | some ft =>
      have hlen : ft.text.length ≤ 2048 := by
        have := optimizeEmbed_limits true e
        exact this.2.2.2.2 ft hfo
      rw [Option.map_some', Option.some_inj, EmbedFooter.mk.injEq]
      exact ⟨truncateText_eq_self (by exact_mod_cast hlen), rfl⟩

/-! ## `ensureTotalEmbedSize` facts and the §4.4 ceilings -/

/-- The combined character count of a list of embeds. -/
def sizesSum (l : List DiscordEmbed) : Nat := (l.map calculateEmbedSize).sum

/-- The §4.4 per-block ceilings, written from the claim. -/
def embedWithinLimits (e : DiscordEmbed) : Prop :=
  e.title.length ≤ 256 ∧ e.description.length ≤ 4096 ∧ e.fields.length ≤ 25 ∧
  (∀ f ∈ e.fields, f.name.length ≤ 256 ∧ f.value.length ≤ 1024) ∧
  (∀ ft, e.footer = some ft → ft.text.length ≤ 2048)

/-- The §4.4 whole-message ceilings, written from the claim. -/
def meetsDiscordLimits (p : DiscordWebhookPayload) : Prop :=
  p.content.length ≤ 2000 ∧ p.embeds.length ≤ 10 ∧
  (∀ e ∈ p.embeds, embedWithinLimits e) ∧ sizesSum p.embeds ≤ 6000

theorem reduceEmbedSize_size {e : DiscordEmbed} {m : Nat} {r : DiscordEmbed}
    (h : reduceEmbedSize e m = some r) : calculateEmbedSize r ≤ m := by
  rw [reduceEmbedSize] at h
  split_ifs at h with h1 h2
  · injection h with h3
    subst h3
    exact h2

theorem reduceEmbedSize_form {e : DiscordEmbed} {m : Nat} {r : DiscordEmbed}
    (h : reduceEmbedSize e m = some r) : r = reducedEmbed e m := by
  rw [reduceEmbedSize] at h
  split_ifs at h with h1 h2
  · injection h with h3
    exact h3.symm

theorem reducedEmbed_limits {e : DiscordEmbed} {m : Nat} (he : embedWithinLimits e) :
    embedWithinLimits (reducedEmbed e m) := by
  rcases he with ⟨ht, hd, _, hf, hft⟩
  refine ⟨ht, ?_, ?_, ?_, hft⟩
  · rw [reducedEmbed]
    dsimp only
    split_ifs with h1
    · exact le_trans (truncateText_length_le _ _) hd
    · exact hd
  · rw [reducedEmbed]
    dsimp only
    calc ((e.fields.take 5).map fun f =>
          ({ name := truncateText f.name (min ((reduceFieldLimit e m : ℚ) / 2) 50),
             value := truncateText f.value (min ((reduceFieldLimit e m : ℚ)) 100),
             inline := f.inline } : EmbedField)).length
        = (e.fields.take 5).length := List.length_map _ _
      _ ≤ 5 := by simpa using List.length_take_le _ _
      _ ≤ 25 := by omega
  · intro f hf2
    rw [reducedEmbed] at hf2
    dsimp only at hf2
    rcases List.mem_map.mp hf2 with ⟨f0, hf0, rfl⟩
    have hf0' := hf f0 (List.mem_of_mem_take hf0)
    exact ⟨le_trans (truncateText_length_le _ _) hf0'.1,
      le_trans (truncateText_length_le _ _) hf0'.2⟩

theorem ensureGo_self : ∀ (l : List DiscordEmbed) (acc : Nat),
    acc + sizesSum l ≤ 6000 → ensureGo acc l = l := by
  intro l
  induction l with
  | nil => intro acc _; rfl
  | cons e rest ih =>
    intro acc h
    rw [ensureGo]
    have hs : sizesSum (e :: rest) = calculateEmbedSize e + sizesSum rest := by
      simp [sizesSum]
    rw [if_pos (by omega)]
    rw [ih (acc + calculateEmbedSize e) (by omega)]

theorem ensureGo_length_le : ∀ (l : List DiscordEmbed) (acc : Nat),
    (ensureGo acc l).length ≤ l.length := by
  intro l
  induction l with
  | nil => intro acc; simp [ensureGo]
  | cons e rest ih =>
    intro acc
    rw [ensureGo]
    split_ifs with h1
    · simpa using ih (acc + calculateEmbedSize e)
    · cases h2 : reduceEmbedSize e (6000 - acc) <;> simp

theorem ensureGo_total : ∀ (l : List DiscordEmbed) (acc : Nat), acc ≤ 6000 →
    acc + sizesSum (ensureGo acc l) ≤ 6000 := by
  intro l
  induction l with
  | nil => intro acc h; simpa [sizesSum] using h
  | cons e rest ih =>
    intro acc h
    rw [ensureGo]
    split_ifs with h1
    · have := ih (acc + calculateEmbedSize e) h1
      have hs : sizesSum (e :: ensureGo (acc + calculateEmbedSize e) rest) =
          calculateEmbedSize e + sizesSum (ensureGo (acc + calculateEmbedSize e) rest) := by
        simp [sizesSum]
      omega
    · cases h2 : reduceEmbedSize e (6000 - acc) with
      | none => simpa [sizesSum] using h
      | some r =>
        have := reduceEmbedSize_size h2
        have hs : sizesSum [r] = calculateEmbedSize r := by simp [sizesSum]
        show acc + sizesSum [r] ≤ 6000
        omega

theorem ensureGo_mem : ∀ (l : List DiscordEmbed) (acc : Nat) (e' : DiscordEmbed),
    e' ∈ ensureGo acc l → e' ∈ l ∨ ∃ e ∈ l, ∃ m, reduceEmbedSize e m = some e' := by
  intro l
  induction l with
  | nil => intro acc e' h; simp [ensureGo] at h
  | cons e rest ih =>
    intro acc e' h
    rw [ensureGo] at h
    split_ifs at h with h1
    · rcases List.mem_cons.mp h with rfl | h2
      · exact Or.inl (List.mem_cons_self ..)
      · rcases ih _ _ h2 with h3 | ⟨e0, he0, m, hm⟩
        · exact Or.inl (List.mem_cons_of_mem _ h3)
        · exact Or.inr ⟨e0, List.mem_cons_of_mem _ he0, m, hm⟩
    · cases h2 : reduceEmbedSize e (6000 - acc) with
      | none => rw [h2] at h; simp at h
      | some r =>
        rw [h2] at h
        simp only [List.mem_singleton] at h
        subst h
        exact Or.inr ⟨e, List.mem_cons_self .., 6000 - acc, h2⟩

/-! ## C4 — the compaction ceilings -/

/-- C4 counterexample: optimization can *increase* a field's name length:
an empty field name becomes the 5-character placeholder `Field`. -/
theorem c4_counterexample :
    (optimizeEmbed false
      { title := [], url := none, description := [], color := 0,
        fields := [{ name := [], value := "x".toList, inline := none }],
        author := none, footer := none, timestamp := none }).fields =
      [{ name := "Field".toList, value := "x".toList, inline := none }] ∧
    ("Field".toList : JStr).length = 5 ∧ (([] : JStr)).length = 0 :=
  ⟨by decide, rfl, rfl⟩

/-- C4 amended: in both environments, every §4.4 ceiling holds on
`optimizePayload`'s output (summary ≤ 2000, title ≤ 256, description ≤ 4096,
field name ≤ 256, field value ≤ 1024, footer ≤ 2048, ≤ 25 fields per embed,
≤ 10 embeds, ≤ 6000 combined characters), and optimization never increases
the summary line's length nor the length of a field's *non-empty* name or
value — empty names and values are instead replaced by the fixed `Field` /
`Empty` placeholders. -/
theorem c4_ceilings_and_monotone (prodEnv : Bool) (payload : DiscordWebhookPayload) :
    meetsDiscordLimits (optimizePayload prodEnv payload) ∧
    (optimizePayload prodEnv payload).content.length ≤ payload.content.length ∧
    (∀ f : EmbedField, f.name ≠ [] → (optimizeField f).name.length ≤ f.name.length) ∧
    (∀ f : EmbedField, f.value ≠ [] → (optimizeField f).value.length ≤ f.value.length) := by
  refine ⟨⟨optimizeContent_le_2000 _, ?_, ?_, ?_⟩, optimizeContent_length_le _,
    fun f hf => optimizeField_name_length_le hf,
    fun f hf => optimizeField_value_length_le hf⟩
  · calc (ensureGo 0 ((payload.embeds.map (optimizeEmbed prodEnv)).take 10)).length
        ≤ ((payload.embeds.map (optimizeEmbed prodEnv)).take 10).length :=
          ensureGo_length_le _ 0
      _ ≤ 10 := by simpa using List.length_take_le _ _
  · intro e he
    have hbase : ∀ e0 ∈ (payload.embeds.map (optimizeEmbed prodEnv)).take 10,
        embedWithinLimits e0 := by
      intro e0 he0
      rcases List.mem_map.mp (List.mem_of_mem_take he0) with ⟨e1, _, rfl⟩
      have h := optimizeEmbed_limits prodEnv e1
      exact ⟨h.1, h.2.1, h.2.2.1,
        fun f hf => ⟨(h.2.2.2.1 f hf).1, (h.2.2.2.1 f hf).2.1⟩, h.2.2.2.2⟩
    rcases ensureGo_mem _ 0 e he with h1 | ⟨e0, he0, m, hm⟩
    · exact hbase e h1
    · rw [reduceEmbedSize_form hm]
      exact reducedEmbed_limits (hbase e0 he0)
  · have := ensureGo_total ((payload.embeds.map (optimizeEmbed prodEnv)).take 10) 0 (by omega)
    simpa using this

/-- Witness for the amended C4 at a concrete payload and field. -/
theorem c4_witness :
    (("n".toList : JStr) ≠ [] ∧ ("v".toList : JStr) ≠ []) ∧
    meetsDiscordLimits (optimizePayload false
      { username := none, avatar_url := none, content := "hi".toList, embeds := [] }) ∧
    (optimizePayload false
      { username := none, avatar_url := none, content := "hi".toList, embeds := [] }).content.length ≤
      ("hi".toList : JStr).length ∧
    (optimizeField { name := "n".toList, value := "v".toList, inline := none }).name.length ≤
      ("n".toList : JStr).length ∧
    (optimizeField { name := "n".toList, value := "v".toList, inline := none }).value.length ≤
      ("v".toList : JStr).length :=
  ⟨⟨by decide, by decide⟩,
    (c4_ceilings_and_monotone false _).1,
    (c4_ceilings_and_monotone false
      { username := none, avatar_url := none, content := "hi".toList, embeds := [] }).2.1,
    (c4_ceilings_and_monotone false
      { username := none, avatar_url := none, content := "hi".toList, embeds := [] }).2.2.1
      { name := "n".toList, value := "v".toList, inline := none } (by decide),
    (c4_ceilings_and_monotone false
      { username := none, avatar_url := none, content := "hi".toList, embeds := [] }).2.2.2
      { name := "n".toList, value := "v".toList, inline := none } (by decide)⟩

/-! ## C3 — compaction idempotence -/

/-- The payload of the C3 counterexample: one embed titled `Issue created`. -/
def devTitlePayload : DiscordWebhookPayload :=
  { username := none, avatar_url := none, content := [],
    embeds := [{ title := "Issue created".toList, url := none, description := [], color := 0,
                 fields := [], author := none, footer := none, timestamp := none }] }

/-- C3 counterexample: under the default (development) configuration the
title-emoji pass breaks idempotence — the first compaction prepends `🆕`
(for the `created` keyword), and a second compaction prepends `🎫` (the
`issue` keyword's emoji is still absent), so
`optimizePayload (optimizePayload m) ≠ optimizePayload m`. -/
theorem c3_counterexample :
    optimizePayload false (optimizePayload false devTitlePayload) ≠
      optimizePayload false devTitlePayload ∧
    (optimizePayload false devTitlePayload).embeds.map (fun e => e.title) =
      ["🆕 Issue created".toList] ∧
    (optimizePayload false (optimizePayload false devTitlePayload)).embeds.map (fun e => e.title) =
      ["🎫 🆕 Issue created".toList] :=
  ⟨by decide, by decide, by decide⟩

/-- C3 amended: in production mode (where no title emojis are injected),
compaction is idempotent on every payload whose per-embed-optimized blocks
already fit the 6000-character combined ceiling — i.e. whenever the
total-size pass does not shrink or drop a block.  (In the default
development mode the emoji pass breaks idempotence, and when the shrink
path does run, a shrunk block whose field names were cut to empty can be
rewritten to `Field` placeholders by a second pass.) -/
theorem c3_idempotent_in_prod (payload : DiscordWebhookPayload)
    (h : sizesSum ((payload.embeds.map (optimizeEmbed true)).take 10) ≤ 6000) :
    optimizePayload true (optimizePayload true payload) = optimizePayload true payload := by
  have hself : ensureGo 0 ((payload.embeds.map (optimizeEmbed true)).take 10) =
      (payload.embeds.map (optimizeEmbed true)).take 10 :=
    ensureGo_self _ 0 (by omega)
  have h1 : optimizePayload true payload =
      { username := payload.username, avatar_url := payload.avatar_url,
        content := optimizeContent payload.content,
        embeds := (payload.embeds.map (optimizeEmbed true)).take 10 } := by
    rw [optimizePayload, ensureTotalEmbedSize, hself]
  have hL10 : ((payload.embeds.map (optimizeEmbed true)).take 10).length ≤ 10 := by
    simpa using List.length_take_le _ _
  have hmap : ((payload.embeds.map (optimizeEmbed true)).take 10).map (optimizeEmbed true) =
      (payload.embeds.map (optimizeEmbed true)).take 10 := by
    conv_rhs => rw [← List.map_id ((payload.embeds.map (optimizeEmbed true)).take 10)]
    refine List.map_congr_left fun e he => ?_
    rcases List.mem_map.mp (List.mem_of_mem_take he) with ⟨e1, _, rfl⟩
    exact optimizeEmbed_fix e1
  rw [h1, optimizePayload]
  simp only [DiscordWebhookPayload.mk.injEq]
  refine ⟨trivial, trivial, optimizeContent_idem _, ?_⟩
  rw [ensureTotalEmbedSize]
  rw [List.take_of_length_le (by simpa using hL10), hmap, hself]

/-- A minimal concrete payload used by the C3 witness. -/
def hiPayload : DiscordWebhookPayload :=
  { username := none, avatar_url := none, content := "hi".toList, embeds := [] }

/-- Witness for the amended C3 at a concrete payload. -/
theorem c3_witness :
    sizesSum ((hiPayload.embeds.map (optimizeEmbed true)).take 10) ≤ 6000 ∧
    optimizePayload true (optimizePayload true hiPayload) = optimizePayload true hiPayload :=
  ⟨by decide, c3_idempotent_in_prod hiPayload (by decide)⟩

/-! ## C5 — diff completeness of the issue-update embed -/

/-- The number of the nine change-tracking guards of
`createIssueUpdateEmbed` that fire (the code's own notion of a tracked
difference: status, assignee, title, priority, project, cycle, estimate,
labels, description presence). -/
def trackedDiffCount (f : IssueUpdatedFrom) (i : LinearIssue) : Nat :=
  (if statusGuard f i then 1 else 0) + (if assigneeGuard f i then 1 else 0) +
  (if titleGuard f i then 1 else 0) + (if priorityGuard f i then 1 else 0) +
  (if projectGuard f i then 1 else 0) + (if cycleGuard f i then 1 else 0) +
  (if estimateGuard f i then 1 else 0) + (if labelsGuard f i then 1 else 0) +
  (if (descriptionChangeLine f i).isSome then 1 else 0)

/-- An issue titled `X`, used by the C5 counterexample and witness. -/
def exIssueX : LinearIssue := { id := "1".toList, title := "X".toList }

/-- The issue of the claim's `Alice` example: unassigned before, assigned
to `Alice` now. -/
def aliceIssue : LinearIssue :=
  { id := "1".toList, title := "X".toList,
    assignee := some { name := "Alice".toList, displayName := none, email := none } }

/-- C5 counterexample: two single-attribute diffs that render *zero* change
lines.  (1) The prior title is the empty string and the title changed to
`X` — the title guard requires the *old* title to be truthy, so the change
is dropped and the description falls back to the generic sentence.
(2) Only the lifecycle timestamp `startedAt` changed — lifecycle
timestamps are not tracked by the live factory at all. -/
theorem c5_counterexample :
    (issueUpdateChanges { title := some [] } exIssueX = [] ∧
     (createIssueUpdateEmbed idDateEnv exIssueX [] { title := some [] }).description =
       issueUpdatedSentence) ∧
    issueUpdateChanges { startedAt := some "2024-01-01".toList }
      { exIssueX with startedAt := some "2024-01-02".toList } = [] := by
  refine ⟨⟨by decide, by decide⟩, by decide⟩

/-- C5 amended: the update embed renders exactly one change line per firing
guard — so exactly one line when exactly one of the nine guards fires, and,
when none fires and no current description is appended, the description is
the generic `Issue details have been updated.` sentence; the claim's
example holds: prior assignee absent and new assignee `Alice` renders the
single line `👤 **Assignee:** Unassigned → **Alice**`.  (The guards differ
from the claim's attribute list: a change *from* an empty-string title is
not tracked, and lifecycle timestamps are not tracked at all.) -/
theorem c5_change_lines (f : IssueUpdatedFrom) (i : LinearIssue)
    (env : JsDateEnv) (url : JStr) :
    (issueUpdateChanges f i).length = trackedDiffCount f i ∧
    (trackedDiffCount f i = 0 → truthyStr i.description = false →
      (createIssueUpdateEmbed env i url f).description = issueUpdatedSentence) ∧
    issueUpdateChanges { assignee := none } aliceIssue =
      ["👤 **Assignee:** Unassigned → **Alice**".toList] := by
  have hmain : (issueUpdateChanges f i).length = trackedDiffCount f i := by
    rw [issueUpdateChanges, trackedDiffCount]
    cases h : descriptionChangeLine f i <;>
      simp [List.length_append, apply_ite List.length] <;> omega
  refine ⟨hmain, ?_, by decide⟩
  intro h0 hd
  have hnil : issueUpdateChanges f i = [] := List.length_eq_zero.mp (hmain.trans h0)
  show (issueUpdateDescription f i).take 4096 = issueUpdatedSentence
  simp only [issueUpdateDescription, hnil, hd]
  simp only [List.length_nil, gt_iff_lt, lt_irrefl, if_false, Bool.false_eq_true,
    false_and, if_neg (fun h => h)]
  decide

/-- Witness for the amended C5: a no-diff envelope on an issue with no
description renders the generic sentence, and the line count matches the
guard count. -/
theorem c5_witness :
    (issueUpdateChanges { } exIssueX).length = trackedDiffCount { } exIssueX ∧
    (createIssueUpdateEmbed idDateEnv exIssueX [] { }).description = issueUpdatedSentence :=
  ⟨(c5_change_lines { } exIssueX idDateEnv []).1,
   (c5_change_lines { } exIssueX idDateEnv []).2.1 (by decide) (by decide)⟩
